import Mathlib

/-!
# DHT11 sensor reader (`dht11/sensor.c`)

A shallow embedding of the capture state, the edge sampler, the frame
validator, the bit decoder, the frame assembler and the checksum test of
`dht11/sensor.c`, followed by theorems about them.

Conventions of the embedding:

* a C `int` is an `Int`; where the source converts between `uint32_t` and
  `int` the value is wrapped to 32 bits explicitly (`to_int32`);
* an `unsigned char` is a `Nat`, reduced `% 256` where the source stores
  into it (`to_uchar`);
* the array `tick_buf` is a `List Int`; reading it at an index outside the
  list is undefined in C and is `none` here, as is a shift by a negative
  count;
* a `for` loop whose header only counts is the list of the values its
  counters take (`for_lt`, `for_le`, `for_i_lt`), and its body is folded
  over that list.
-/

namespace DHT11

/-! ## Constants -/

/-- The constant `#define DHT_GPIO_PORT 4`. -/
def DHT_GPIO_PORT : Int := 4

/-- The constant `#define DHT_INIT_RESPONSE_LENGTH 3`. -/
def DHT_INIT_RESPONSE_LENGTH : Nat := 3

/-- The constant `#define DHT_BUFFER_LENGTH 80 + DHT_INIT_RESPONSE_LENGTH`. The definition has
no parentheses; at each of its uses (`char tick_buf[...]`, `tick_index < ...`,
`i < ...`) it still parses as the sum. -/
def DHT_BUFFER_LENGTH : Nat := 80 + DHT_INIT_RESPONSE_LENGTH

/-! ## Machine integers -/

/-- The `int` (32 bit, two's complement) that holds `x` modulo `2^32`. -/
def to_int32 (x : Int) : Int := (x + 2 ^ 31) % 2 ^ 32 - 2 ^ 31

/-- The `unsigned int` bit pattern of an `int`. -/
def to_uint32 (x : Int) : Nat := (x % 2 ^ 32).toNat

/-- Conversion of an `int` to `unsigned char`. -/
def to_uchar (x : Int) : Nat := (x % 256).toNat

/-- The C expression `a | b` on two `int`s, computed on the bit patterns. -/
def c_or (a b : Int) : Int := to_int32 (Int.ofNat (to_uint32 a ||| to_uint32 b))

/-- The C expression `x << n` on an `int`. It is defined for a count in
`0..31`, where gcc delivers `x * 2^n` wrapped to 32 bits (also for a
negative `x`); for every other count it is undefined. -/
def c_shl (x n : Int) : Option Int :=
  if 0 ≤ n ∧ n < 32 then some (to_int32 (x * 2 ^ n.toNat)) else none

/-! ## Capture state -/

/-- The record `struct init_response_info`. The cursor `tick_index` starts at zero and
is only ever incremented, so it is a natural number here. -/
structure init_response_info where
  tick_buf : List Int
  tick_count : Int
  tick_index : Nat
  running : Int
  finished : Int
  error : Int
deriving DecidableEq

/-- The initial value of the global `respinfo = { {0}, 0, 0, 0, 0, 0 }`. -/
def respinfo : init_response_info :=
  { tick_buf := List.replicate DHT_BUFFER_LENGTH 0
    tick_count := 0
    tick_index := 0
    running := 0
    finished := 0
    error := 0 }

/-! ## Edge sampler -/

/-- The callback `on_init_response_change(gpio, level, ticks)`, acting on the global
capture state. `ticks` is the `uint32_t` time stamp of the edge. The
difference `ticks - respinfo.tick_count` is taken modulo `2^32` and read as
an `int`. A length that is stored lies in 11..99, so its conversion to the
`char` cell of the buffer does not change it. -/
def on_init_response_change (s : init_response_info) (gpio level : Int) (ticks : Nat) :
    init_response_info :=
  if gpio ≠ DHT_GPIO_PORT ∨ level < 0 ∨ level > 1 then s
  else if s.finished = 1 then s
  else if s.tick_index < DHT_BUFFER_LENGTH then
    if s.running = 0 then
      { s with running := 1, tick_count := to_int32 ticks }
    else
      let length : Int := to_int32 ((ticks : Int) - s.tick_count)
      if length > 10 ∧ length < 100 then
        { s with
          tick_buf := s.tick_buf.set s.tick_index length
          tick_count := to_int32 ticks
          tick_index := s.tick_index + 1 }
      else
        { s with error := 1 }
  else
    { s with running := 0, finished := 1 }

/-- The function `clear_response_info()`. The buffer itself is not cleared. -/
def clear_response_info (s : init_response_info) : init_response_info :=
  { s with running := 0, finished := 0, tick_count := 0, tick_index := 0, error := 0 }

/-- One alert delivered by the GPIO library to the callback. -/
structure edge_event where
  gpio : Int
  level : Int
  ticks : Nat
deriving DecidableEq

/-- The callback applied to one alert. -/
def deliver (s : init_response_info) (e : edge_event) : init_response_info :=
  on_init_response_change s e.gpio e.level e.ticks

/-- The capture window of `read_data`: the alerts that arrive between
`gpioSetAlertFunc(DHT_GPIO_PORT, on_init_response_change)` and
`gpioSetAlertFunc(DHT_GPIO_PORT, NULL)`, delivered in order. -/
def capture_window (s : init_response_info) (events : List edge_event) : init_response_info :=
  events.foldl deliver s

/-! ## Bit decoder -/

/-- The function `decode_data_bit(pulse_length)`. -/
def decode_data_bit (pulse_length : Int) : Int :=
  if pulse_length ≥ 15 ∧ pulse_length ≤ 35 then 0
  else if pulse_length ≥ 60 ∧ pulse_length ≤ 80 then 1
  else -1

/-! ## Loop headers -/

/-- The values of `i` at which the body of
`for (int i = start; i < end_index; i += 2)` runs. -/
def for_i_lt (end_index i : Nat) : List Nat :=
  if i < end_index then i :: for_i_lt end_index (i + 2) else []
termination_by end_index - i

/-- The values of `(i, j)` at which the body of
`for (int i = start, j = 0; i < end_index; i += 2, ++j)` runs. -/
def for_lt (end_index i j : Nat) : List (Nat × Nat) :=
  if i < end_index then (i, j) :: for_lt end_index (i + 2) (j + 1) else []
termination_by end_index - i

/-- The values of `(i, j)` at which the body of
`for (int i = start, j = 0; i <= end_index; i += 2, ++j)` runs. -/
def for_le (end_index i j : Nat) : List (Nat × Nat) :=
  if i ≤ end_index then (i, j) :: for_le end_index (i + 2) (j + 1) else []
termination_by end_index + 1 - i

/-! ## Frame validator -/

/-- How `read_data` ends: the value it returns and the line it prints. -/
inductive read_result where
  /-- All checks passed, `return 0`. -/
  | ok
  /-- Prints "Timeout occured while reading data", `return -1`. -/
  | timeout
  /-- Prints "Bad length (first response pulse)", `return -1`. -/
  | bad_first
  /-- Prints "Bad length (second/third response pulse)", `return -1`. -/
  | bad_second_third
  /-- Prints "Bad header pulse length %d at position %d", `return -1`. -/
  | bad_header (length : Int) (position : Nat)
  /-- Prints "Bad data pulse length %d at position %d", `return -1`. -/
  | bad_data (length : Int) (position : Nat)
deriving DecidableEq

/-- The `int` returned by `read_data`. -/
def read_result.code : read_result → Int
  | .ok => 0
  | _ => -1

/-- The body of the payload loop of `read_data`, run at the values of `i`
listed; `none` continues with the statement after the loop. -/
def check_pairs (buf : List Int) : List Nat → Option (Option read_result)
  | [] => some none
  | i :: rest =>
    (buf[i]?).bind fun header =>
      if header < 40 ∨ header > 60 then some (some (.bad_header header i))
      else
        (buf[i + 1]?).bind fun data =>
          let good_low : Bool := decide (data ≥ 15 ∧ data ≤ 35)
          let good_high : Bool := decide (data ≥ 55 ∧ data ≤ 85)
          if !(good_low || good_high) then some (some (.bad_data data i))
          else check_pairs buf rest

/-- The part of `read_data` that follows the capture window (from the
timeout test to `return 0`). The outer `none` is a read outside `tick_buf`. -/
def read_data_check (s : init_response_info) : Option read_result :=
  if s.running ≠ 0 ∨ ¬ (s.finished ≠ 0) then some .timeout
  else
    (s.tick_buf[0]?).bind fun p0 =>
      if p0 < 10 ∨ p0 > 50 then some .bad_first
      else
        (s.tick_buf[1]?).bind fun p1 =>
          if p1 < 65 ∨ p1 > 95 then some .bad_second_third
          else
            (s.tick_buf[2]?).bind fun p2 =>
              if p2 < 65 ∨ p2 > 95 then some .bad_second_third
              else
                (check_pairs s.tick_buf
                    (for_i_lt DHT_BUFFER_LENGTH DHT_INIT_RESPONSE_LENGTH)).map fun r =>
                  match r with
                  | some rejected => rejected
                  | none => .ok

/-- The function `read_data()` without its GPIO calls: reset, capture window, checks.
Returns the capture state left behind and the outcome. -/
def read_data (s : init_response_info) (events : List edge_event) :
    init_response_info × Option read_result :=
  let s1 := clear_response_info s
  let s2 := capture_window s1 events
  (s2, read_data_check s2)

/-! ## Frame assembler -/

/-- The five `unsigned char` objects that `decode_data` is given. -/
structure frame_bytes where
  temp_high : Nat
  temp_low : Nat
  hum_high : Nat
  hum_low : Nat
  parity : Nat
deriving DecidableEq

/-- What `decode_data` leaves in the five objects: `none` where the loop
that fills the object has undefined behaviour. -/
structure decoded_bytes where
  temp_high : Option Nat
  temp_low : Option Nat
  hum_high : Option Nat
  hum_low : Option Nat
  parity : Option Nat
deriving DecidableEq

/-- The body shared by the five loops of `decode_data`:
`int bit = decode_data_bit(respinfo.tick_buf[i+1]); *out = *out | bit << (7 - j);` -/
def decode_step (buf : List Int) (out : Option Nat) (ij : Nat × Nat) : Option Nat :=
  out.bind fun o =>
    (buf[ij.1 + 1]?).bind fun pulse =>
      let bit := decode_data_bit pulse
      (c_shl bit (7 - (ij.2 : Int))).map fun shifted =>
        to_uchar (c_or (o : Int) shifted)

/-- The counter values of the five loops of `decode_data`, in source order. -/
structure decode_loops where
  hum_high : List (Nat × Nat)
  hum_low : List (Nat × Nat)
  temp_high : List (Nat × Nat)
  temp_low : List (Nat × Nat)
  parity : List (Nat × Nat)

/-- The loop headers of `decode_data` with its running `start_index` and
`end_index`. The first four loops test `i < end_index`, the last one
`i <= end_index`. -/
def decode_data_loops : decode_loops :=
  let start_index := DHT_INIT_RESPONSE_LENGTH
  let end_index := start_index + 16
  let l1 := for_lt end_index start_index 0
  let start_index := start_index + 16
  let end_index := end_index + 16
  let l2 := for_lt end_index start_index 0
  let start_index := start_index + 16
  let end_index := end_index + 16
  let l3 := for_lt end_index start_index 0
  let start_index := start_index + 16
  let end_index := end_index + 16
  let l4 := for_lt end_index start_index 0
  let start_index := start_index + 16
  let end_index := end_index + 16
  let l5 := for_le end_index start_index 0
  { hum_high := l1, hum_low := l2, temp_high := l3, temp_low := l4, parity := l5 }

/-- The function `decode_data(&temp_high, &temp_low, &hum_high, &hum_low, &parity)` on
the capture state `s`, the five objects holding `o` on entry. -/
def decode_data (s : init_response_info) (o : frame_bytes) : decoded_bytes :=
  let loops := decode_data_loops
  { hum_high := loops.hum_high.foldl (decode_step s.tick_buf) (some o.hum_high)
    hum_low := loops.hum_low.foldl (decode_step s.tick_buf) (some o.hum_low)
    temp_high := loops.temp_high.foldl (decode_step s.tick_buf) (some o.temp_high)
    temp_low := loops.temp_low.foldl (decode_step s.tick_buf) (some o.temp_low)
    parity := loops.parity.foldl (decode_step s.tick_buf) (some o.parity) }

/-- The five objects as `main` declares them before it calls `decode_data`. -/
def zero_bytes : frame_bytes :=
  { temp_high := 0, temp_low := 0, hum_high := 0, hum_low := 0, parity := 0 }

/-! ## Checksum test -/

/-- The line `main` prints after "data status: ". -/
inductive data_status where
  | invalid
  | ok
deriving DecidableEq

/-- The checksum test of `main`:
`const int byte_sum = temp_high + temp_low + hum_high + hum_low;`
`if (byte_sum != parity) printf("invalid\n"); else printf("ok\n");` -/
def check_status (temp_high temp_low hum_high hum_low parity : Nat) : data_status :=
  let byte_sum : Int := (temp_high : Int) + temp_low + hum_high + hum_low
  if byte_sum ≠ (parity : Int) then .invalid else .ok

/-! ## Decoded bits as numbers -/

/-- The natural number a decoded bit stands for (`0` for the marker `-1`). -/
def bit_value (buf : List Int) (index : Nat) : Nat :=
  (decode_data_bit (buf.getD index 0)).toNat

/-! ## Invariant of the capture state -/

/-- What holds of the capture state throughout a capture window: the cursor
stays within the buffer length, the flags `running` and `finished` are 0 or
1, and `finished` is only set with a full buffer and `running` cleared. -/
def capture_inv (s : init_response_info) : Prop :=
  s.tick_index ≤ DHT_BUFFER_LENGTH ∧
  (s.running = 0 ∨ s.running = 1) ∧
  (s.finished = 0 ∨ (s.finished = 1 ∧ s.running = 0 ∧ s.tick_index = DHT_BUFFER_LENGTH))

/-! ## Sample captures and capture windows -/

/-- The (header, data) pulse pairs that encode `bits`: a header of 50
ticks, then `long` ticks for a 1 and `short` ticks for a 0. -/
def payload_pulses (short long : Int) (bits : List Nat) : List Int :=
  bits.flatMap fun b => [50, if b = 1 then long else short]

/-- A completed capture (buffer full, `finished` set, not `running`) that
holds the response pulses 20, 80, 80 and then the given payload pulses. -/
def completed_capture (payload : List Int) : init_response_info :=
  { tick_buf := [20, 80, 80] ++ payload
    tick_count := 0
    tick_index := DHT_BUFFER_LENGTH
    running := 0
    finished := 1
    error := 0 }

/-- The bit pattern "10110010 00000000 00011011 00000000", followed by the
eight bits of its checksum byte `0xB2 + 0x1B = 0xCD`. -/
def known_good_bits : List Nat :=
  [1, 0, 1, 1, 0, 0, 1, 0,
   0, 0, 0, 0, 0, 0, 0, 0,
   0, 0, 0, 1, 1, 0, 1, 1,
   0, 0, 0, 0, 0, 0, 0, 0,
   1, 1, 0, 0, 1, 1, 0, 1]

/-- The known-good trace: 25 ticks for a 0, 70 ticks for a 1. -/
def known_good_capture : init_response_info :=
  completed_capture (payload_pulses 25 70 known_good_bits)

/-- The bytes 0x01, 0x00, 0x00, 0x00 and their checksum 0x01, bit by bit. -/
def low_bit_pattern : List Nat :=
  [0, 0, 0, 0, 0, 0, 0, 1,
   0, 0, 0, 0, 0, 0, 0, 0,
   0, 0, 0, 0, 0, 0, 0, 0,
   0, 0, 0, 0, 0, 0, 0, 0,
   0, 0, 0, 0, 0, 0, 0, 1]

/-- The pattern `low_bit_pattern` sent with 25 ticks for a 0 and 57 ticks
for a 1; 57 lies in the long band 55..85 of `read_data`. -/
def low_bit_capture : init_response_info :=
  completed_capture (payload_pulses 25 57 low_bit_pattern)

/-- A capture whose first data pulse (index 4) lasts `first` ticks and whose
other 39 data pulses last 25 ticks. -/
def first_pulse_capture (first : Int) : init_response_info :=
  completed_capture ([50, first] ++ payload_pulses 25 70 (List.replicate 39 0))

/-- Edges on the sensor pin at the given successive distances after time
`t`, the level alternating, starting with `level`. -/
def edges_after (t : Nat) (level : Int) : List Nat → List edge_event
  | [] => []
  | d :: rest => ⟨DHT_GPIO_PORT, level, t + d⟩ :: edges_after (t + d) (1 - level) rest

/-- The pulse lengths of the known-good trace, response pulses included. -/
def known_good_lengths : List Nat :=
  [20, 80, 80] ++ known_good_bits.flatMap fun b => [50, if b = 1 then 70 else 25]

/-- A clean capture window: the edge that starts the sampler, the 83 edges
that end the pulses of the known-good trace, and one further edge. -/
def clean_window : List edge_event :=
  ⟨DHT_GPIO_PORT, 0, 1000⟩ :: (edges_after 1000 1 (known_good_lengths ++ [50]))

/-- The same window with a spike on the line, two spurious edges 5 and 8
ticks after the first edge. -/
def glitch_window : List edge_event :=
  ⟨DHT_GPIO_PORT, 0, 1000⟩ :: ⟨DHT_GPIO_PORT, 1, 1005⟩ :: ⟨DHT_GPIO_PORT, 0, 1008⟩ ::
    (edges_after 1000 1 (known_good_lengths ++ [50]))

/-- A window that ends after three pulses. -/
def short_window : List edge_event :=
  ⟨DHT_GPIO_PORT, 0, 1000⟩ :: (edges_after 1000 1 [20, 80, 80])

/-! ## Measured pulse length, buffer invariant -/

/-- The value of `const int length = ticks - respinfo.tick_count` in the
callback: the difference of the time stamp and the reference, taken modulo
`2^32` and read as an `int`. -/
def measured_length (s : init_response_info) (ticks : Nat) : Int :=
  to_int32 ((ticks : Int) - s.tick_count)

/-- Conversion of an `int` to `signed char`. -/
def to_schar (x : Int) : Int := (x + 128) % 256 - 128

/-- What holds of the buffer throughout a capture window: it keeps its 83
entries, the cursor stays within them, and every entry below the cursor
lies strictly between 10 and 100. -/
def buffer_inv (s : init_response_info) : Prop :=
  s.tick_buf.length = DHT_BUFFER_LENGTH ∧
  s.tick_index ≤ DHT_BUFFER_LENGTH ∧
  ∀ i, i < s.tick_index → 10 < s.tick_buf.getD i 0 ∧ s.tick_buf.getD i 0 < 100

/-! ## Further sample states and windows -/

/-- A window with the starting edge and the 83 edges that end the pulses of
the known-good trace, and no edge after them. -/
def full_window : List edge_event :=
  ⟨DHT_GPIO_PORT, 0, 1000⟩ :: (edges_after 1000 1 known_good_lengths)

/-- The capture state after the window `short_window`: sampling is running,
three pulses are stored and the reference is 1180. -/
def running_state : init_response_info :=
  capture_window (clear_response_info respinfo) short_window

/-! ## Log of the stored durations -/

/-- The durations that a run of events makes the callback store, in order:
the lengths measured on edges of the sensor pin (level 0 or 1) while the
capture is not finished, the cursor is below 83 and sampling is running,
that lie strictly between 10 and 100. -/
def measured_log (s : init_response_info) : List edge_event → List Int
  | [] => []
  | e :: rest =>
    if e.gpio = DHT_GPIO_PORT ∧ (e.level = 0 ∨ e.level = 1) ∧ s.finished ≠ 1 ∧
        s.tick_index < DHT_BUFFER_LENGTH ∧ s.running ≠ 0 ∧
        10 < measured_length s e.ticks ∧ measured_length s e.ticks < 100 then
      measured_length s e.ticks :: measured_log (deliver s e) rest
    else
      measured_log (deliver s e) rest

/-! ## Data-pulse test of the validator -/

/-- The data-pulse test in the payload loop of `read_data`:
`good_low || good_high` with `good_low = pulse >= 15 && pulse <= 35` and
`good_high = pulse >= 55 && pulse <= 85`. -/
def good_data_pulse (data : Int) : Bool :=
  let good_low : Bool := decide (data ≥ 15 ∧ data ≤ 35)
  let good_high : Bool := decide (data ≥ 55 ∧ data ≤ 85)
  good_low || good_high

/-! ## Statements of one reading cycle -/

/-- The pin modes of the GPIO library that the source uses. -/
inductive pin_mode where
  | PI_INPUT
  | PI_OUTPUT
deriving DecidableEq

/-- The pull resistor settings of the GPIO library that the source uses. -/
inductive pull_mode where
  | PI_PUD_DOWN
  | PI_PUD_UP
deriving DecidableEq

/-- One statement of `init_sensor_reading` or `read_data` that calls the
GPIO library or touches the capture state. `gpioSleep` is always called with
`PI_TIME_RELATIVE`; `gpioSetAlertFunc` is given `on_init_response_change`
(`attach = true`) or `NULL` (`attach = false`); `inspect_capture` stands for
the tests of `read_data` from the timeout test on, which read the flags and
then the buffer entries. -/
inductive cycle_step where
  | gpioSetMode (gpio : Int) (mode : pin_mode)
  | gpioSetPullUpDown (gpio : Int) (pud : pull_mode)
  | gpioSleep (seconds micros : Nat)
  | gpioWrite (gpio : Int) (level : Nat)
  | gpioSetAlertFunc (gpio : Int) (attach : Bool)
  | clear_response_info
  | inspect_capture
deriving DecidableEq

/-- The statements of `init_sensor_reading()`, in source order. -/
def init_sensor_reading : List cycle_step :=
  [ .gpioSetMode DHT_GPIO_PORT .PI_OUTPUT,
    .gpioSetPullUpDown DHT_GPIO_PORT .PI_PUD_DOWN,
    .gpioSleep 1 0,
    .gpioWrite DHT_GPIO_PORT 0,
    .gpioSleep 0 18000,
    .gpioWrite DHT_GPIO_PORT 1,
    .gpioSleep 0 30 ]

/-- The statements of `read_data()`, in source order. -/
def read_data_steps : List cycle_step :=
  [ .gpioSetMode DHT_GPIO_PORT .PI_INPUT,
    .clear_response_info,
    .gpioSetAlertFunc DHT_GPIO_PORT true,
    .gpioSleep 0 5000,
    .gpioSetAlertFunc DHT_GPIO_PORT false,
    .inspect_capture ]

/-- One pass of the loop of `main` up to the end of `read_data`:
`init_sensor_reading(); if (read_data() != -1) ...`. -/
def reading_cycle : List cycle_step :=
  init_sensor_reading ++ read_data_steps

/-- Whether a statement is a call of the GPIO library. -/
def cycle_step.is_gpio_call : cycle_step → Bool
  | .clear_response_info => false
  | .inspect_capture => false
  | _ => true

/-! ## Control part of the capture state, elapsed ticks -/

/-- Two capture states that agree in everything but the buffer contents. -/
def same_control (s t : init_response_info) : Prop :=
  s.tick_count = t.tick_count ∧ s.tick_index = t.tick_index ∧ s.running = t.running ∧
  s.finished = t.finished ∧ s.error = t.error

/-- The number of ticks from the reference to the time stamp `ticks` on the
32-bit tick counter. -/
def elapsed (s : init_response_info) (ticks : Nat) : Int :=
  ((ticks : Int) - s.tick_count) % 2 ^ 32

/-- The capture state right after the window `full_window`: the buffer is
full, `running` is 1, `finished` is 0 and the reference is 4765. -/
def full_state : init_response_info :=
  capture_window (clear_response_info respinfo) full_window

/-! ## Bytes of the frame assembler -/

/-- The byte that the eight data pulses after index `start` stand for, the
first pulse giving bit 7:
`∑ j < 8, bit(buf[start + 2j + 1]) * 2^(7 - j)`. -/
def decoded_byte (buf : List Int) (start : Nat) : Nat :=
  ∑ j ∈ Finset.range 8, bit_value buf (start + 2 * j + 1) * 2 ^ (7 - j)

/-! ## The checksum loop as the compiled program runs it -/

/-- How the shift instruction of the target treats the count. For
`bit << (7 - j)` gcc emits the shift instruction with the count in a
register: x86 and 64-bit ARM take the count modulo 32; 32-bit ARM takes the
low byte of the count and delivers 0 when that is above 31. -/
inductive shift_count where
  | modulo_32
  | low_byte
deriving DecidableEq

/-- The value of `x << n` on an `int` in the compiled program. For a count in
0..31 it is the value of `c_shl`. -/
def machine_shl (m : shift_count) (x n : Int) : Int :=
  match m with
  | .modulo_32 => to_int32 (x * 2 ^ (n % 32).toNat)
  | .low_byte => if n % 256 < 32 then to_int32 (x * 2 ^ (n % 256).toNat) else 0

/-- The body of the loops of `decode_data`,
`int bit = decode_data_bit(respinfo.tick_buf[i+1]); *out = *out | bit << (7 - j);`
as the compiled program runs it. `tick_buf` is the first member of
`respinfo`, so a read past its 83 entries finds a byte of the members that
follow; `beyond` is the value of that byte. -/
def decode_step_compiled (m : shift_count) (beyond : Int) (buf : List Int) (out : Nat)
    (ij : Nat × Nat) : Nat :=
  let bit := decode_data_bit (buf.getD (ij.1 + 1) beyond)
  to_uchar (c_or (out : Int) (machine_shl m bit (7 - (ij.2 : Int))))

/-- The byte that the checksum loop of `decode_data` (all nine passes of
`for (int i = start_index, j = 0; i <= end_index; i += 2, ++j)`) leaves in
`parity` in the compiled program, `o.parity` being its value on entry. -/
def decode_data_parity_compiled (m : shift_count) (beyond : Int) (s : init_response_info)
    (o : frame_bytes) : Nat :=
  decode_data_loops.parity.foldl (decode_step_compiled m beyond s.tick_buf) o.parity

end DHT11

/-!
# Morse server (`morse/server.c`)

The decoding table and `print_chain` of `morse/server.c`. A `char` is an
`Int`; whether `char` is signed depends on the platform, so the embedding
takes this as a parameter `signed_char`.
-/

namespace Morse

/-- The constant `#define PACKET_LENGTH 8`. -/
def PACKET_LENGTH : Nat := 8

/-- The value of a `char` after `x` is stored in it: `x` modulo 256, taken
in -128..127 when `char` is signed and in 0..255 when it is not. -/
def to_char (signed_char : Bool) (x : Int) : Int :=
  if signed_char then (x + 128) % 256 - 128 else x % 256

/-- The C expression `a & b` on 32-bit operands, computed on the bit
patterns; the result is given as an `unsigned int`. -/
def c_and (a b : Int) : Nat := DHT11.to_uint32 a &&& DHT11.to_uint32 b

/-- The initial value of the global `char decode_table[128] = {0}`. -/
def decode_table : List Int := List.replicate 128 0

/-- The function `setup_decoding_table()`: 36 assignments
`decode_table[c] = byte`, in source order. -/
def setup_decoding_table (signed_char : Bool) (table : List Int) : List Int :=
  let t := table.set 'a'.toNat (to_char signed_char 0x41)
  let t := t.set 'b'.toNat (to_char signed_char 0x88)
  let t := t.set 'c'.toNat (to_char signed_char 0x8A)
  let t := t.set 'd'.toNat (to_char signed_char 0x64)
  let t := t.set 'e'.toNat (to_char signed_char 0x20)
  let t := t.set 'f'.toNat (to_char signed_char 0x82)
  let t := t.set 'g'.toNat (to_char signed_char 0x66)
  let t := t.set 'h'.toNat (to_char signed_char 0x80)
  let t := t.set 'i'.toNat (to_char signed_char 0x40)
  let t := t.set 'j'.toNat (to_char signed_char 0x87)
  let t := t.set 'k'.toNat (to_char signed_char 0x65)
  let t := t.set 'l'.toNat (to_char signed_char 0x84)
  let t := t.set 'm'.toNat (to_char signed_char 0x43)
  let t := t.set 'n'.toNat (to_char signed_char 0x42)
  let t := t.set 'o'.toNat (to_char signed_char 0x67)
  let t := t.set 'p'.toNat (to_char signed_char 0x86)
  let t := t.set 'q'.toNat (to_char signed_char 0x8D)
  let t := t.set 'r'.toNat (to_char signed_char 0x62)
  let t := t.set 's'.toNat (to_char signed_char 0x60)
  let t := t.set 't'.toNat (to_char signed_char 0x21)
  let t := t.set 'u'.toNat (to_char signed_char 0x61)
  let t := t.set 'v'.toNat (to_char signed_char 0x81)
  let t := t.set 'w'.toNat (to_char signed_char 0x63)
  let t := t.set 'x'.toNat (to_char signed_char 0x89)
  let t := t.set 'y'.toNat (to_char signed_char 0x8B)
  let t := t.set 'z'.toNat (to_char signed_char 0x8C)
  let t := t.set '0'.toNat (to_char signed_char 0xBF)
  let t := t.set '1'.toNat (to_char signed_char 0xAF)
  let t := t.set '2'.toNat (to_char signed_char 0xA7)
  let t := t.set '3'.toNat (to_char signed_char 0xA3)
  let t := t.set '4'.toNat (to_char signed_char 0xA1)
  let t := t.set '5'.toNat (to_char signed_char 0xA0)
  let t := t.set '6'.toNat (to_char signed_char 0xB0)
  let t := t.set '7'.toNat (to_char signed_char 0xB8)
  let t := t.set '8'.toNat (to_char signed_char 0xBC)
  let t := t.set '9'.toNat (to_char signed_char 0xBE)
  t

/-- The function `get_length_mask(length)`. -/
def get_length_mask (length : Int) : Nat :=
  if length = 1 then 0x1
  else if length = 2 then 0x3
  else if length = 3 then 0x7
  else if length = 4 then 0xF
  else if length = 5 then 0x1F
  else 0

/-- The loop of `print_chain`: for `i = 0, ..., length - 1` it prints "."
when `sign == 0` and "-" otherwise, with
`unsigned char tmp = (chain << PACKET_LENGTH - length + i)` and
`unsigned char sign = tmp >> PACKET_LENGTH - 1`. The shift counts parse as
`PACKET_LENGTH - length + i` and `PACKET_LENGTH - 1`; `length` is at most 7
here, so the first one does not wrap. -/
def print_signs (length chain : Nat) : List Char :=
  (List.range length).map fun i =>
    let tmp : Nat := (chain <<< (PACKET_LENGTH - length + i)) % 256
    let sign : Nat := tmp >>> (PACKET_LENGTH - 1)
    if sign = 0 then '.' else '-'

/-- The dots and dashes that `print_chain(c)` prints for a character that
passes its test: `data = decode_table[c]`, `length = (data >> 5) & 0x7` (gcc
shifts a negative `int` arithmetically), `mask = get_length_mask(length)`,
`chain = data & mask`, then the loop. `none` is a read outside the table. -/
def chain_signs (table : List Int) (c : Int) : Option (List Char) :=
  (table[c.toNat]?).map fun (data : Int) =>
    let length : Nat := c_and (data >>> (5 : Nat)) 0x7
    let mask : Nat := get_length_mask (length : Int)
    let chain : Nat := (c_and data (mask : Int)) % 256
    print_signs length chain

/-- The function `print_chain(c)`: the text it prints, which is
"(c) ", the dots and dashes and a line feed for a digit or a small letter,
and nothing for any other character. -/
def print_chain (table : List Int) (c : Int) : Option (List Char) :=
  if (c ≥ '0'.toNat ∧ c ≤ '9'.toNat) ∨ (c ≥ 'a'.toNat ∧ c ≤ 'z'.toNat) then
    (chain_signs table c).map fun signs =>
      "(".toList ++ [Char.ofNat c.toNat] ++ ") ".toList ++ signs ++ [Char.ofNat 10]
  else
    some []

/-- The International Morse code of the small letters and the digits, as
dots and dashes; empty for every other character. -/
def international_morse (c : Char) : String :=
  match c with
  | 'a' => ".-"
  | 'b' => "-..."
  | 'c' => "-.-."
  | 'd' => "-.."
  | 'e' => "."
  | 'f' => "..-."
  | 'g' => "--."
  | 'h' => "...."
  | 'i' => ".."
  | 'j' => ".---"
  | 'k' => "-.-"
  | 'l' => ".-.."
  | 'm' => "--"
  | 'n' => "-."
  | 'o' => "---"
  | 'p' => ".--."
  | 'q' => "--.-"
  | 'r' => ".-."
  | 's' => "..."
  | 't' => "-"
  | 'u' => "..-"
  | 'v' => "...-"
  | 'w' => ".--"
  | 'x' => "-..-"
  | 'y' => "-.--"
  | 'z' => "--.."
  | '0' => "-----"
  | '1' => ".----"
  | '2' => "..---"
  | '3' => "...--"
  | '4' => "....-"
  | '5' => "....."
  | '6' => "-...."
  | '7' => "--..."
  | '8' => "---.."
  | '9' => "----."
  | _ => ""

/-- The characters '0'..'9' and 'a'..'z', as `char` values. -/
def morse_characters : List Nat :=
  (List.range 10).map (fun k => '0'.toNat + k) ++ (List.range 26).map (fun k => 'a'.toNat + k)

/-- The table entry of `c` as a byte, whatever the sign of `char`. -/
def entry_byte (table : List Int) (c : Nat) : Nat :=
  ((table.getD c 0) % 256).toNat

end Morse

namespace DHT11

/-! # Theorems -/

set_option maxRecDepth 100000

/-! ## Loop headers, evaluated -/

theorem for_i_lt_payload :
    for_i_lt DHT_BUFFER_LENGTH DHT_INIT_RESPONSE_LENGTH =
      [3, 5, 7, 9, 11, 13, 15, 17, 19, 21, 23, 25, 27, 29, 31, 33, 35, 37, 39, 41,
       43, 45, 47, 49, 51, 53, 55, 57, 59, 61, 63, 65, 67, 69, 71, 73, 75, 77, 79, 81] := by
  simp [for_i_lt, DHT_BUFFER_LENGTH, DHT_INIT_RESPONSE_LENGTH]

theorem decode_data_loops_hum_high :
    decode_data_loops.hum_high =
      [(3, 0), (5, 1), (7, 2), (9, 3), (11, 4), (13, 5), (15, 6), (17, 7)] := by
  simp [decode_data_loops, for_lt, DHT_INIT_RESPONSE_LENGTH]

theorem decode_data_loops_hum_low :
    decode_data_loops.hum_low =
      [(19, 0), (21, 1), (23, 2), (25, 3), (27, 4), (29, 5), (31, 6), (33, 7)] := by
  simp [decode_data_loops, for_lt, DHT_INIT_RESPONSE_LENGTH]

theorem decode_data_loops_temp_high :
    decode_data_loops.temp_high =
      [(35, 0), (37, 1), (39, 2), (41, 3), (43, 4), (45, 5), (47, 6), (49, 7)] := by
  simp [decode_data_loops, for_lt, DHT_INIT_RESPONSE_LENGTH]

theorem decode_data_loops_temp_low :
    decode_data_loops.temp_low =
      [(51, 0), (53, 1), (55, 2), (57, 3), (59, 4), (61, 5), (63, 6), (65, 7)] := by
  simp [decode_data_loops, for_lt, DHT_INIT_RESPONSE_LENGTH]

theorem decode_data_loops_parity :
    decode_data_loops.parity =
      [(67, 0), (69, 1), (71, 2), (73, 3), (75, 4), (77, 5), (79, 6), (81, 7), (83, 8)] := by
  simp [decode_data_loops, for_le, DHT_INIT_RESPONSE_LENGTH]

/-! ## Machine integers, small values -/

theorem to_int32_of_small (x : Int) (h0 : 0 ≤ x) (h1 : x < 2 ^ 31) : to_int32 x = x := by
  unfold to_int32
  norm_num at h1 ⊢
  omega

theorem to_uint32_natCast (n : Nat) (h : n < 2 ^ 32) : to_uint32 (n : Int) = n := by
  unfold to_uint32
  norm_num at h ⊢
  omega

theorem to_uchar_natCast (n : Nat) (h : n < 256) : to_uchar (n : Int) = n := by
  unfold to_uchar
  omega

/-- OR-ing two byte values in `int` and storing the result in an
`unsigned char` is the OR of the two bytes. -/
theorem to_uchar_c_or (o x : Nat) (ho : o < 256) (hx : x < 256) :
    to_uchar (c_or (o : Int) (x : Int)) = o ||| x := by
  have hox : o ||| x < 2 ^ 8 := Nat.or_lt_two_pow (by norm_num; exact ho) (by norm_num; exact hx)
  norm_num at hox
  unfold c_or
  rw [to_uint32_natCast o (by norm_num; omega), to_uint32_natCast x (by norm_num; omega)]
  rw [Int.ofNat_eq_coe, to_int32_of_small _ (by omega) (by norm_num; omega)]
  exact to_uchar_natCast _ hox

/-! ## One step and one loop of the frame assembler -/

theorem c_shl_bit (b : Int) (j : Nat) (hj : j ≤ 7) (hb : b = 0 ∨ b = 1) :
    c_shl b (7 - (j : Int)) = some ((b.toNat * 2 ^ (7 - j) : Nat) : Int) := by
  have hj' : j = 0 ∨ j = 1 ∨ j = 2 ∨ j = 3 ∨ j = 4 ∨ j = 5 ∨ j = 6 ∨ j = 7 := by omega
  rcases hb with rfl | rfl <;> rcases hj' with rfl | rfl | rfl | rfl | rfl | rfl | rfl | rfl <;>
    simp [c_shl, to_int32]

theorem decode_step_bit (buf : List Int) (o i j : Nat) (hi : i + 1 < buf.length)
    (hj : j ≤ 7) (ho : o < 256)
    (hb : decode_data_bit (buf.getD (i + 1) 0) = 0 ∨ decode_data_bit (buf.getD (i + 1) 0) = 1) :
    decode_step buf (some o) (i, j) = some (o ||| bit_value buf (i + 1) * 2 ^ (7 - j)) := by
  have hget : buf[i + 1]? = some (buf.getD (i + 1) 0) := by
    rw [List.getD_eq_getElem?_getD, List.getElem?_eq_getElem hi]; rfl
  have hx : bit_value buf (i + 1) * 2 ^ (7 - j) < 256 := by
    have hj' : j = 0 ∨ j = 1 ∨ j = 2 ∨ j = 3 ∨ j = 4 ∨ j = 5 ∨ j = 6 ∨ j = 7 := by omega
    unfold bit_value
    rcases hb with h | h <;> rw [h] <;>
      rcases hj' with rfl | rfl | rfl | rfl | rfl | rfl | rfl | rfl <;> simp
  unfold bit_value at hx ⊢
  simp only [decode_step, Option.some_bind, hget, c_shl_bit _ j hj hb, Option.map_some']
  rw [to_uchar_c_or o _ ho hx]

theorem decode_step_lt (buf : List Int) (o i j : Nat) (hj : j ≤ 7) (ho : o < 256)
    (hb : decode_data_bit (buf.getD (i + 1) 0) = 0 ∨ decode_data_bit (buf.getD (i + 1) 0) = 1) :
    o ||| bit_value buf (i + 1) * 2 ^ (7 - j) < 256 := by
  have hj' : j = 0 ∨ j = 1 ∨ j = 2 ∨ j = 3 ∨ j = 4 ∨ j = 5 ∨ j = 6 ∨ j = 7 := by omega
  have hx : bit_value buf (i + 1) * 2 ^ (7 - j) < 2 ^ 8 := by
    unfold bit_value
    rcases hb with h | h <;> rw [h] <;>
      rcases hj' with rfl | rfl | rfl | rfl | rfl | rfl | rfl | rfl <;> simp
  have := Nat.or_lt_two_pow (show o < 2 ^ 8 by norm_num; exact ho) hx
  simpa using this

/-- Eight bits in eight different positions: OR-ing them is adding them. -/
theorem or_bits_eq_sum : ∀ b0 b1 b2 b3 b4 b5 b6 b7 : Bool,
    b0.toNat * 128 ||| b1.toNat * 64 ||| b2.toNat * 32 ||| b3.toNat * 16 |||
        b4.toNat * 8 ||| b5.toNat * 4 ||| b6.toNat * 2 ||| b7.toNat =
      b0.toNat * 128 + b1.toNat * 64 + b2.toNat * 32 + b3.toNat * 16 +
        b4.toNat * 8 + b5.toNat * 4 + b6.toNat * 2 + b7.toNat := by
  decide

theorem bit_value_bool (buf : List Int) (index : Nat)
    (hb : decode_data_bit (buf.getD index 0) = 0 ∨ decode_data_bit (buf.getD index 0) = 1) :
    ∃ b : Bool, bit_value buf index = b.toNat := by
  unfold bit_value
  rcases hb with h | h
  · exact ⟨false, by rw [h]; rfl⟩
  · exact ⟨true, by rw [h]; rfl⟩

/-- One byte loop of `decode_data`: eight iterations from `start`, the
object holding `v` on entry. -/
theorem decode_loop_byte (buf : List Int) (start v : Nat) (hlen : start + 16 ≤ buf.length)
    (hv : v < 256)
    (hbits : ∀ j, j < 8 → decode_data_bit (buf.getD (start + 2 * j + 1) 0) = 0 ∨
      decode_data_bit (buf.getD (start + 2 * j + 1) 0) = 1) :
    List.foldl (decode_step buf) (some v)
        [(start, 0), (start + 2, 1), (start + 4, 2), (start + 6, 3),
         (start + 8, 4), (start + 10, 5), (start + 12, 6), (start + 14, 7)] =
      some (v ||| ∑ j ∈ Finset.range 8, bit_value buf (start + 2 * j + 1) * 2 ^ (7 - j)) := by
  have h0 := hbits 0 (by omega)
  have h1 := hbits 1 (by omega)
  have h2 := hbits 2 (by omega)
  have h3 := hbits 3 (by omega)
  have h4 := hbits 4 (by omega)
  have h5 := hbits 5 (by omega)
  have h6 := hbits 6 (by omega)
  have h7 := hbits 7 (by omega)
  simp only [Nat.mul_zero, Nat.mul_one, Nat.add_zero, Nat.reduceMul] at h0 h1 h2 h3 h4 h5 h6 h7
  simp only [List.foldl]
  have l0 := decode_step_lt buf v start 0 (by omega) hv h0
  rw [decode_step_bit buf v start 0 (by omega) (by omega) hv h0]
  have l1 := decode_step_lt buf _ (start + 2) 1 (by omega) l0 h1
  rw [decode_step_bit buf _ (start + 2) 1 (by omega) (by omega) l0 h1]
  have l2 := decode_step_lt buf _ (start + 4) 2 (by omega) l1 h2
  rw [decode_step_bit buf _ (start + 4) 2 (by omega) (by omega) l1 h2]
  have l3 := decode_step_lt buf _ (start + 6) 3 (by omega) l2 h3
  rw [decode_step_bit buf _ (start + 6) 3 (by omega) (by omega) l2 h3]
  have l4 := decode_step_lt buf _ (start + 8) 4 (by omega) l3 h4
  rw [decode_step_bit buf _ (start + 8) 4 (by omega) (by omega) l3 h4]
  have l5 := decode_step_lt buf _ (start + 10) 5 (by omega) l4 h5
  rw [decode_step_bit buf _ (start + 10) 5 (by omega) (by omega) l4 h5]
  have l6 := decode_step_lt buf _ (start + 12) 6 (by omega) l5 h6
  rw [decode_step_bit buf _ (start + 12) 6 (by omega) (by omega) l5 h6]
  rw [decode_step_bit buf _ (start + 14) 7 (by omega) (by omega) l6 h7]
  obtain ⟨b0, e0⟩ := bit_value_bool buf _ h0
  obtain ⟨b1, e1⟩ := bit_value_bool buf _ h1
  obtain ⟨b2, e2⟩ := bit_value_bool buf _ h2
  obtain ⟨b3, e3⟩ := bit_value_bool buf _ h3
  obtain ⟨b4, e4⟩ := bit_value_bool buf _ h4
  obtain ⟨b5, e5⟩ := bit_value_bool buf _ h5
  obtain ⟨b6, e6⟩ := bit_value_bool buf _ h6
  obtain ⟨b7, e7⟩ := bit_value_bool buf _ h7
  simp only [Finset.sum_range_succ, Finset.sum_range_zero, Nat.mul_zero, Nat.mul_one,
    Nat.add_zero, Nat.zero_add, Nat.reduceMul, Nat.reduceSub, Nat.reducePow,
    e0, e1, e2, e3, e4, e5, e6, e7]
  rw [← or_bits_eq_sum b0 b1 b2 b3 b4 b5 b6 b7]
  simp only [Nat.lor_assoc, Nat.mul_one]

/-! ## Checksum test -/

/-- C1 (evaluation of the code): the checksum test of `main` compares the
unreduced sum with the checksum byte. It accepts the bytes
(0x32, 0x00, 0x1B, 0x00) with checksum 0x4D and rejects them with checksum
0x4E, but it also rejects the bytes (0x80, 0x00, 0x80, 0x00) with checksum
0x00, although `(0x80 + 0x00 + 0x80 + 0x00) mod 256 = 0x00`. -/
theorem check_status_unreduced_sum :
    check_status 0x1B 0x00 0x32 0x00 0x4D = .ok ∧
    check_status 0x1B 0x00 0x32 0x00 0x4E = .invalid ∧
    (0x80 + 0x00 + 0x80 + 0x00) % 256 = 0x00 ∧
    check_status 0x80 0x00 0x80 0x00 0x00 = .invalid := by
  decide

/-! ## Bit decoder -/

/-- C4: `decode_data_bit d` is 0 for `15 ≤ d ≤ 35`, 1 for `60 ≤ d ≤ 80`
and the marker -1 for every other `d`; in particular it is -1 for every
`d` in 36..59. -/
theorem decode_data_bit_bands (d : Int) :
    (15 ≤ d ∧ d ≤ 35 → decode_data_bit d = 0) ∧
    (60 ≤ d ∧ d ≤ 80 → decode_data_bit d = 1) ∧
    (¬ (15 ≤ d ∧ d ≤ 35) ∧ ¬ (60 ≤ d ∧ d ≤ 80) → decode_data_bit d = -1) ∧
    (36 ≤ d ∧ d ≤ 59 → decode_data_bit d = -1) := by
  unfold decode_data_bit
  refine ⟨?_, ?_, ?_, ?_⟩
  · intro h
    rw [if_pos ⟨h.1, h.2⟩]
  · intro h
    rw [if_neg (by omega), if_pos ⟨h.1, h.2⟩]
  · intro h
    rw [if_neg (by omega), if_neg (by omega)]
  · intro h
    rw [if_neg (by omega), if_neg (by omega)]

/-- C4 at durations 25, 70, 45, 36, 59, 14, 81, 0 and -3. -/
theorem decode_data_bit_bands_witness :
    decode_data_bit 25 = 0 ∧ decode_data_bit 70 = 1 ∧ decode_data_bit 45 = -1 ∧
    decode_data_bit 36 = -1 ∧ decode_data_bit 59 = -1 ∧ decode_data_bit 14 = -1 ∧
    decode_data_bit 81 = -1 ∧ decode_data_bit 0 = -1 ∧ decode_data_bit (-3) = -1 :=
  ⟨(decode_data_bit_bands 25).1 (by decide),
   (decode_data_bit_bands 70).2.1 (by decide),
   (decode_data_bit_bands 45).2.2.2 (by decide),
   (decode_data_bit_bands 36).2.2.2 (by decide),
   (decode_data_bit_bands 59).2.2.2 (by decide),
   (decode_data_bit_bands 14).2.2.1 (by decide),
   (decode_data_bit_bands 81).2.2.1 (by decide),
   (decode_data_bit_bands 0).2.2.1 (by decide),
   (decode_data_bit_bands (-3)).2.2.1 (by decide)⟩

/-! ## Frame assembler -/

/-- The four data-byte loops of `decode_data`, the objects holding zero on
entry: byte `k` is the sum of its eight decoded bits, most significant
first. -/
theorem decode_data_zero_bytes (s : init_response_info)
    (hlen : s.tick_buf.length = DHT_BUFFER_LENGTH)
    (hbits : ∀ m, m < 32 →
      decode_data_bit (s.tick_buf.getD (4 + 2 * m) 0) = 0 ∨
      decode_data_bit (s.tick_buf.getD (4 + 2 * m) 0) = 1) :
    (decode_data s zero_bytes).hum_high =
      some (∑ j ∈ Finset.range 8, bit_value s.tick_buf (3 + 16 * 0 + 2 * j + 1) * 2 ^ (7 - j)) ∧
    (decode_data s zero_bytes).hum_low =
      some (∑ j ∈ Finset.range 8, bit_value s.tick_buf (3 + 16 * 1 + 2 * j + 1) * 2 ^ (7 - j)) ∧
    (decode_data s zero_bytes).temp_high =
      some (∑ j ∈ Finset.range 8, bit_value s.tick_buf (3 + 16 * 2 + 2 * j + 1) * 2 ^ (7 - j)) ∧
    (decode_data s zero_bytes).temp_low =
      some (∑ j ∈ Finset.range 8, bit_value s.tick_buf (3 + 16 * 3 + 2 * j + 1) * 2 ^ (7 - j)) := by
  have hlen' : s.tick_buf.length = 83 := hlen
  have hb : ∀ k, k < 4 → ∀ j, j < 8 →
      decode_data_bit (s.tick_buf.getD (3 + 16 * k + 2 * j + 1) 0) = 0 ∨
      decode_data_bit (s.tick_buf.getD (3 + 16 * k + 2 * j + 1) 0) = 1 := by
    intro k hk j hj
    have e : 3 + 16 * k + 2 * j + 1 = 4 + 2 * (8 * k + j) := by omega
    rw [e]
    exact hbits (8 * k + j) (by omega)
  have h0 := decode_loop_byte s.tick_buf (3 + 16 * 0) 0 (by omega) (by omega) (hb 0 (by omega))
  have h1 := decode_loop_byte s.tick_buf (3 + 16 * 1) 0 (by omega) (by omega) (hb 1 (by omega))
  have h2 := decode_loop_byte s.tick_buf (3 + 16 * 2) 0 (by omega) (by omega) (hb 2 (by omega))
  have h3 := decode_loop_byte s.tick_buf (3 + 16 * 3) 0 (by omega) (by omega) (hb 3 (by omega))
  rw [Nat.zero_or] at h0 h1 h2 h3
  refine ⟨?_, ?_, ?_, ?_⟩
  · rw [← h0]
    simp only [decode_data, decode_data_loops_hum_high, zero_bytes]
  · rw [← h1]
    simp only [decode_data, decode_data_loops_hum_low, zero_bytes]
  · rw [← h2]
    simp only [decode_data, decode_data_loops_temp_high, zero_bytes]
  · rw [← h3]
    simp only [decode_data, decode_data_loops_temp_low, zero_bytes]

/-- C6: on an 83-entry buffer whose data pulses at indices 4, 6, ..., 66 each
decode to 0 or 1, `decode_data` started on zero bytes leaves in `hum_high`,
`hum_low`, `temp_high`, `temp_low` (k = 0, 1, 2, 3, in this order) the byte
`∑ j < 8, bit(buf[3 + 16k + 2j + 1]) * 2^(7 - j)`; a second buffer with the
same data pulses at these indices gives the same four bytes, whatever its
header pulses are. -/
theorem decode_data_data_bytes (s : init_response_info)
    (hlen : s.tick_buf.length = DHT_BUFFER_LENGTH)
    (hbits : ∀ m, m < 32 →
      decode_data_bit (s.tick_buf.getD (4 + 2 * m) 0) = 0 ∨
      decode_data_bit (s.tick_buf.getD (4 + 2 * m) 0) = 1) :
    ((decode_data s zero_bytes).hum_high =
        some (∑ j ∈ Finset.range 8, bit_value s.tick_buf (3 + 16 * 0 + 2 * j + 1) * 2 ^ (7 - j)) ∧
      (decode_data s zero_bytes).hum_low =
        some (∑ j ∈ Finset.range 8, bit_value s.tick_buf (3 + 16 * 1 + 2 * j + 1) * 2 ^ (7 - j)) ∧
      (decode_data s zero_bytes).temp_high =
        some (∑ j ∈ Finset.range 8, bit_value s.tick_buf (3 + 16 * 2 + 2 * j + 1) * 2 ^ (7 - j)) ∧
      (decode_data s zero_bytes).temp_low =
        some (∑ j ∈ Finset.range 8, bit_value s.tick_buf (3 + 16 * 3 + 2 * j + 1) * 2 ^ (7 - j))) ∧
    ∀ s2 : init_response_info, s2.tick_buf.length = DHT_BUFFER_LENGTH →
      (∀ m, m < 32 → s2.tick_buf.getD (4 + 2 * m) 0 = s.tick_buf.getD (4 + 2 * m) 0) →
      (decode_data s2 zero_bytes).hum_high = (decode_data s zero_bytes).hum_high ∧
      (decode_data s2 zero_bytes).hum_low = (decode_data s zero_bytes).hum_low ∧
      (decode_data s2 zero_bytes).temp_high = (decode_data s zero_bytes).temp_high ∧
      (decode_data s2 zero_bytes).temp_low = (decode_data s zero_bytes).temp_low := by
  have main := decode_data_zero_bytes s hlen hbits
  refine ⟨main, ?_⟩
  intro s2 hlen2 hsame
  have hbits2 : ∀ m, m < 32 →
      decode_data_bit (s2.tick_buf.getD (4 + 2 * m) 0) = 0 ∨
      decode_data_bit (s2.tick_buf.getD (4 + 2 * m) 0) = 1 := by
    intro m hm
    rw [hsame m hm]
    exact hbits m hm
  have main2 := decode_data_zero_bytes s2 hlen2 hbits2
  have hv : ∀ k, k < 4 → ∀ j, j ∈ Finset.range 8 →
      bit_value s2.tick_buf (3 + 16 * k + 2 * j + 1) * 2 ^ (7 - j) =
      bit_value s.tick_buf (3 + 16 * k + 2 * j + 1) * 2 ^ (7 - j) := by
    intro k hk j hj
    have hj' := Finset.mem_range.mp hj
    have e : 3 + 16 * k + 2 * j + 1 = 4 + 2 * (8 * k + j) := by omega
    unfold bit_value
    rw [e, hsame (8 * k + j) (by omega)]
  obtain ⟨a0, a1, a2, a3⟩ := main
  obtain ⟨b0, b1, b2, b3⟩ := main2
  refine ⟨?_, ?_, ?_, ?_⟩
  · rw [a0, b0, Finset.sum_congr rfl (hv 0 (by omega))]
  · rw [a1, b1, Finset.sum_congr rfl (hv 1 (by omega))]
  · rw [a2, b2, Finset.sum_congr rfl (hv 2 (by omega))]
  · rw [a3, b3, Finset.sum_congr rfl (hv 3 (by omega))]

/-- C6 on the known-good trace: the four data bytes are 0xB2, 0x00, 0x1B, 0x00. -/
theorem decode_data_data_bytes_witness :
    (decode_data known_good_capture zero_bytes).hum_high = some 0xB2 ∧
    (decode_data known_good_capture zero_bytes).hum_low = some 0x00 ∧
    (decode_data known_good_capture zero_bytes).temp_high = some 0x1B ∧
    (decode_data known_good_capture zero_bytes).temp_low = some 0x00 := by
  have h := (decode_data_data_bytes known_good_capture (by decide) (by decide)).1
  refine ⟨h.1.trans ?_, h.2.1.trans ?_, h.2.2.1.trans ?_, h.2.2.2.trans ?_⟩ <;> decide

/-- C9: on an 83-entry buffer whose data pulses at indices 4, 6, ..., 66
encode the bit pattern "10110010 00000000 00011011 00000000" (a pulse of
15..35 ticks, such as 25, for a 0 and a pulse of 60..80 ticks, such as 70,
for a 1), `decode_data` started on zero bytes yields `hum_high = 0xB2`,
`hum_low = 0x00`, `temp_high = 0x1B` and `temp_low = 0x00`. -/
theorem decode_data_known_good (s : init_response_info)
    (hlen : s.tick_buf.length = DHT_BUFFER_LENGTH)
    (hpat : ∀ m, m < 32 →
      (known_good_bits.getD m 0 = 0 →
        15 ≤ s.tick_buf.getD (4 + 2 * m) 0 ∧ s.tick_buf.getD (4 + 2 * m) 0 ≤ 35) ∧
      (known_good_bits.getD m 0 = 1 →
        60 ≤ s.tick_buf.getD (4 + 2 * m) 0 ∧ s.tick_buf.getD (4 + 2 * m) 0 ≤ 80)) :
    (decode_data s zero_bytes).hum_high = some 0xB2 ∧
    (decode_data s zero_bytes).hum_low = some 0x00 ∧
    (decode_data s zero_bytes).temp_high = some 0x1B ∧
    (decode_data s zero_bytes).temp_low = some 0x00 := by
  have hkg : ∀ m, m < 32 → known_good_bits.getD m 0 = 0 ∨ known_good_bits.getD m 0 = 1 := by
    decide
  have hdec : ∀ m, m < 32 →
      decode_data_bit (s.tick_buf.getD (4 + 2 * m) 0) = (known_good_bits.getD m 0 : Nat) := by
    intro m hm
    rcases hkg m hm with h | h
    · have hp := (hpat m hm).1 h
      rw [h]
      unfold decode_data_bit
      rw [if_pos ⟨hp.1, hp.2⟩]
      rfl
    · have hp := (hpat m hm).2 h
      rw [h]
      unfold decode_data_bit
      rw [if_neg (by omega), if_pos ⟨hp.1, hp.2⟩]
      rfl
  have hbits : ∀ m, m < 32 →
      decode_data_bit (s.tick_buf.getD (4 + 2 * m) 0) = 0 ∨
      decode_data_bit (s.tick_buf.getD (4 + 2 * m) 0) = 1 := by
    intro m hm
    rw [hdec m hm]
    rcases hkg m hm with h | h <;> rw [h]
    · left; rfl
    · right; rfl
  have hv : ∀ k, k < 4 → ∀ j, j ∈ Finset.range 8 →
      bit_value s.tick_buf (3 + 16 * k + 2 * j + 1) * 2 ^ (7 - j) =
      known_good_bits.getD (8 * k + j) 0 * 2 ^ (7 - j) := by
    intro k hk j hj
    have hj' := Finset.mem_range.mp hj
    have e : 3 + 16 * k + 2 * j + 1 = 4 + 2 * (8 * k + j) := by omega
    unfold bit_value
    rw [e, hdec (8 * k + j) (by omega), Int.toNat_ofNat]
  obtain ⟨a0, a1, a2, a3⟩ := decode_data_zero_bytes s hlen hbits
  refine ⟨?_, ?_, ?_, ?_⟩
  · rw [a0, Finset.sum_congr rfl (hv 0 (by omega))]
    decide
  · rw [a1, Finset.sum_congr rfl (hv 1 (by omega))]
    decide
  · rw [a2, Finset.sum_congr rfl (hv 2 (by omega))]
    decide
  · rw [a3, Finset.sum_congr rfl (hv 3 (by omega))]
    decide

/-- C9 on the trace with 25 ticks for a 0, 70 ticks for a 1 and 50-tick
header pulses. -/
theorem decode_data_known_good_witness :
    known_good_capture.tick_buf.length = DHT_BUFFER_LENGTH ∧
    known_good_capture.tick_buf.take 19 =
      [20, 80, 80, 50, 70, 50, 25, 50, 70, 50, 70, 50, 25, 50, 25, 50, 70, 50, 25] ∧
    (decode_data known_good_capture zero_bytes).hum_high = some 0xB2 ∧
    (decode_data known_good_capture zero_bytes).hum_low = some 0x00 ∧
    (decode_data known_good_capture zero_bytes).temp_high = some 0x1B ∧
    (decode_data known_good_capture zero_bytes).temp_low = some 0x00 :=
  ⟨by decide, by decide,
    decode_data_known_good known_good_capture (by decide) (by decide)⟩

/-- The checksum loop of `decode_data` in the strict reading of C: it tests
`i <= end_index` and so runs nine times, at `i = 67, 69, ..., 83`. On the
known-good trace the first eight iterations assemble 0xCD from the data
pulses at indices 68, 70, ..., 82; the ninth reads `tick_buf[84]`, outside
the 83-entry buffer, and shifts by `7 - 8 = -1`, which the C standard leaves
undefined. -/
theorem decode_data_parity_ninth_iteration :
    decode_data_loops.parity =
      [(67, 0), (69, 1), (71, 2), (73, 3), (75, 4), (77, 5), (79, 6), (81, 7), (83, 8)] ∧
    known_good_capture.tick_buf.length = 83 ∧
    (decode_data_loops.parity.take 8).foldl (decode_step known_good_capture.tick_buf) (some 0) =
      some 0xCD ∧
    known_good_capture.tick_buf[83 + 1]? = none ∧
    c_shl 1 (7 - ((8 : Nat) : Int)) = none ∧
    decode_step known_good_capture.tick_buf (some 0xCD) (83, 8) = none ∧
    (decode_data known_good_capture zero_bytes).parity = none := by
  simp only [decode_data, decode_data_loops_parity]
  decide

/-- C8 (evaluation of the code): each of the four data-byte loops of
`decode_data` runs 8 times, reads `tick_buf[i + 1]` at indices within 3..82
and shifts by `7 - j` within 0..7; the checksum loop runs 9 times, and its
last iteration, at `(i, j) = (83, 8)`, reads index 84 and shifts by -1. -/
theorem decode_data_loop_bounds :
    (∀ ij ∈ decode_data_loops.hum_high ++ decode_data_loops.hum_low ++
        decode_data_loops.temp_high ++ decode_data_loops.temp_low,
      3 ≤ ij.1 + 1 ∧ ij.1 + 1 ≤ 82 ∧ (0 : Int) ≤ 7 - (ij.2 : Int) ∧ 7 - (ij.2 : Int) ≤ 7) ∧
    decode_data_loops.hum_high.length = 8 ∧
    decode_data_loops.hum_low.length = 8 ∧
    decode_data_loops.temp_high.length = 8 ∧
    decode_data_loops.temp_low.length = 8 ∧
    decode_data_loops.parity.length = 9 ∧
    decode_data_loops.parity.getLast? = some (83, 8) ∧
    ¬ (83 + 1 ≤ 82) ∧
    (7 : Int) - ((8 : Nat) : Int) = -1 := by
  simp only [decode_data_loops_hum_high, decode_data_loops_hum_low,
    decode_data_loops_temp_high, decode_data_loops_temp_low, decode_data_loops_parity]
  decide

/-- C5 (evaluation of the code): a capture that `read_data` accepts and whose
first data pulse lasts 57 ticks, which `decode_data_bit` classifies as
invalid. `decode_data` has no failing exit: it leaves 0x80 in `hum_high`,
the byte it also leaves when that pulse lasts 70 ticks and decodes to 1.
The same byte results for a first data pulse of 45 ticks. -/
theorem decode_data_invalid_bit_taken_as_one :
    read_data_check (first_pulse_capture 57) = some .ok ∧
    decode_data_bit 57 = -1 ∧
    (decode_data (first_pulse_capture 57) zero_bytes).hum_high = some 0x80 ∧
    decode_data_bit 70 = 1 ∧
    (decode_data (first_pulse_capture 70) zero_bytes).hum_high = some 0x80 ∧
    decode_data_bit 45 = -1 ∧
    (decode_data (first_pulse_capture 45) zero_bytes).hum_high = some 0x80 := by
  simp only [read_data_check, for_i_lt_payload, decode_data, decode_data_loops_hum_high]
  decide

/-- C2 (evaluation of the code): the completed capture `low_bit_capture`
keeps every band of `read_data` (a 1 is sent as 57 ticks, inside 55..85) and
encodes the bytes 0x01, 0x00, 0x00, 0x00, 0x01. `read_data` accepts it, but
`decode_data` leaves 0xFF in `hum_high` instead of 0x01, and the checksum
byte is not defined. -/
theorem round_trip_fails_in_long_band :
    low_bit_capture.tick_buf.length = 83 ∧
    low_bit_capture.finished = 1 ∧ low_bit_capture.running = 0 ∧
    (∀ m, m < 40 →
      (low_bit_pattern.getD m 0 = 0 →
        15 ≤ low_bit_capture.tick_buf.getD (4 + 2 * m) 0 ∧
        low_bit_capture.tick_buf.getD (4 + 2 * m) 0 ≤ 35) ∧
      (low_bit_pattern.getD m 0 = 1 →
        55 ≤ low_bit_capture.tick_buf.getD (4 + 2 * m) 0 ∧
        low_bit_capture.tick_buf.getD (4 + 2 * m) 0 ≤ 85)) ∧
    read_data_check low_bit_capture = some .ok ∧
    (decode_data low_bit_capture zero_bytes).hum_high = some 0xFF ∧
    (decode_data low_bit_capture zero_bytes).parity = none := by
  simp only [read_data_check, for_i_lt_payload, decode_data, decode_data_loops_hum_high,
    decode_data_loops_parity]
  decide

/-! ## Edge sampler -/

theorem capture_inv_clear (s : init_response_info) : capture_inv (clear_response_info s) := by
  refine ⟨?_, Or.inl rfl, Or.inl rfl⟩
  show 0 ≤ DHT_BUFFER_LENGTH
  exact Nat.zero_le _

theorem capture_inv_step (s : init_response_info) (gpio level : Int) (ticks : Nat)
    (h : capture_inv s) : capture_inv (on_init_response_change s gpio level ticks) := by
  obtain ⟨hidx, hrun, hfin⟩ := h
  unfold on_init_response_change
  dsimp only
  split_ifs with h1 h2 h3 h4 h5
  · exact ⟨hidx, hrun, hfin⟩
  · exact ⟨hidx, hrun, hfin⟩
  · refine ⟨hidx, Or.inr rfl, Or.inl ?_⟩
    rcases hfin with hf | hf
    · exact hf
    · exact absurd hf.1 h2
  · refine ⟨?_, hrun, Or.inl ?_⟩
    · show s.tick_index + 1 ≤ DHT_BUFFER_LENGTH
      omega
    · rcases hfin with hf | hf
      · exact hf
      · exact absurd hf.1 h2
  · exact ⟨hidx, hrun, hfin⟩
  · refine ⟨hidx, Or.inl rfl, Or.inr ⟨rfl, rfl, ?_⟩⟩
    show s.tick_index = DHT_BUFFER_LENGTH
    omega

theorem capture_inv_window (events : List edge_event) (s : init_response_info)
    (h : capture_inv s) : capture_inv (capture_window s events) := by
  induction events generalizing s with
  | nil => exact h
  | cons e rest ih =>
    exact ih _ (capture_inv_step s e.gpio e.level e.ticks h)

theorem read_result_code_ok (r : read_result) (h : r.code ≠ -1) : r = .ok := by
  cases r <;> first | rfl | exact absurd rfl h

theorem read_data_check_ok (s : init_response_info) (h : read_data_check s = some .ok) :
    s.running = 0 ∧ s.finished ≠ 0 := by
  unfold read_data_check at h
  split_ifs at h with h1
  · exact absurd h (by decide)
  · constructor
    · by_contra hr
      exact h1 (Or.inl hr)
    · intro hf
      exact h1 (Or.inr (by simp [hf]))

/-- C3 (evaluation of the code): the window `glitch_window` contains a spike,
two edges only 5 and 8 ticks after the first one. At the first of them the
sampler sets `error` (the length 5 is not above 10) and stores nothing; it
goes on, fills the buffer and sets `finished`. `read_data`, which tests only
`running` and `finished`, then returns 0 while `error` is 1, so `decode_data`
is run on a capture whose `error` flag is set. The same window without the
spike, `clean_window`, ends with `error = 0`. -/
theorem frame_produced_with_error_set :
    (deliver (deliver (clear_response_info respinfo) ⟨DHT_GPIO_PORT, 0, 1000⟩)
      ⟨DHT_GPIO_PORT, 1, 1005⟩).error = 1 ∧
    (deliver (deliver (clear_response_info respinfo) ⟨DHT_GPIO_PORT, 0, 1000⟩)
      ⟨DHT_GPIO_PORT, 1, 1005⟩).tick_index = 0 ∧
    (read_data respinfo glitch_window).2 = some .ok ∧
    read_result.code .ok = 0 ∧
    (read_data respinfo glitch_window).1.finished = 1 ∧
    (read_data respinfo glitch_window).1.running = 0 ∧
    (read_data respinfo glitch_window).1.error = 1 ∧
    ¬ ((read_data respinfo glitch_window).1.finished = 1 ∧
      (read_data respinfo glitch_window).1.error = 0) ∧
    (read_data respinfo clean_window).2 = some .ok ∧
    (read_data respinfo clean_window).1.error = 0 := by
  simp only [read_data, read_data_check, for_i_lt_payload]
  decide

/-- The part of the frame-production invariant that the code keeps: for every
capture state and every sequence of edge events delivered to the sampler
after the reset of `read_data`, if `read_data` returns success (a value other
than -1), then the capture state it leaves has `finished = 1` and
`running = 0`. Nothing follows for `error`: the window `glitch_window` ends
with success and `error = 1`. -/
theorem frame_only_from_finished_capture (s : init_response_info) (events : List edge_event)
    (r : read_result) (hr : (read_data s events).2 = some r) (hcode : r.code ≠ -1) :
    (read_data s events).1.finished = 1 ∧ (read_data s events).1.running = 0 := by
  have hok : r = .ok := read_result_code_ok r hcode
  subst hok
  have hinv := capture_inv_window events _ (capture_inv_clear s)
  have hchk := read_data_check_ok _ hr
  obtain ⟨-, -, hfin⟩ := hinv
  rcases hfin with hf | hf
  · exact absurd hf hchk.2
  · exact ⟨hf.1, hf.2.1⟩

/-- The flags after the clean window of the known-good trace. -/
theorem frame_only_from_finished_capture_witness :
    (read_data respinfo clean_window).2 = some .ok ∧
    (read_data respinfo clean_window).1.finished = 1 ∧
    (read_data respinfo clean_window).1.running = 0 :=
  have h : (read_data respinfo clean_window).2 = some .ok := by
    simp only [read_data, read_data_check, for_i_lt_payload]
    decide
  ⟨h, frame_only_from_finished_capture respinfo clean_window .ok h (by decide)⟩

/-- C10: for every capture state and every sequence of edge events delivered
to the sampler after the reset of `read_data`, if the cursor is below the
buffer length (83) when the window ends, `read_data` ends at its first test
with the timeout outcome and returns -1; the outcome is the same whatever
the buffer holds, even for an empty buffer, so no pulse is read. -/
theorem timeout_when_buffer_not_full (s : init_response_info) (events : List edge_event)
    (h : (read_data s events).1.tick_index < DHT_BUFFER_LENGTH) :
    (read_data s events).2 = some .timeout ∧ read_result.code .timeout = -1 ∧
    ∀ buf : List Int,
      read_data_check { (read_data s events).1 with tick_buf := buf } = some .timeout := by
  have hinv := capture_inv_window events _ (capture_inv_clear s)
  obtain ⟨-, -, hfin⟩ := hinv
  have hf : (capture_window (clear_response_info s) events).finished = 0 := by
    rcases hfin with hf | hf
    · exact hf
    · have h' : (capture_window (clear_response_info s) events).tick_index <
          DHT_BUFFER_LENGTH := h
      omega
  refine ⟨?_, rfl, ?_⟩
  · show read_data_check (capture_window (clear_response_info s) events) = some .timeout
    unfold read_data_check
    rw [if_pos (Or.inr (by simp [hf]))]
  · intro buf
    unfold read_data_check
    rw [if_pos (Or.inr (by
      show ¬ ((capture_window (clear_response_info s) events).finished ≠ 0)
      simp [hf]))]

/-- C10 on a window that ends after three pulses. -/
theorem timeout_when_buffer_not_full_witness :
    (read_data respinfo short_window).1.tick_index = 3 ∧
    (read_data respinfo short_window).2 = some .timeout ∧ read_result.code .timeout = -1 :=
  have h := timeout_when_buffer_not_full respinfo short_window (by decide)
  ⟨by decide, h.1, h.2.1⟩

/-! ## Frame validator -/

theorem tick_buf_read (buf : List Int) (i : Nat) (h : i < buf.length) :
    buf[i]? = some (buf.getD i 0) := by
  rw [List.getD_eq_getElem?_getD, List.getElem?_eq_getElem h]
  rfl

theorem for_i_lt_payload_map :
    for_i_lt DHT_BUFFER_LENGTH DHT_INIT_RESPONSE_LENGTH =
      (List.range 40).map fun k => 3 + 2 * k := by
  rw [for_i_lt_payload]
  decide

/-- The payload loop of `read_data` on in-bounds indices: it always ends,
and it runs through exactly when every pair keeps its bands. -/
theorem check_pairs_accepts (buf : List Int) (l : List Nat)
    (hl : ∀ i ∈ l, i + 1 < buf.length) :
    (check_pairs buf l = some none ↔
      ∀ i ∈ l, (40 ≤ buf.getD i 0 ∧ buf.getD i 0 ≤ 60) ∧
        ((15 ≤ buf.getD (i + 1) 0 ∧ buf.getD (i + 1) 0 ≤ 35) ∨
         (55 ≤ buf.getD (i + 1) 0 ∧ buf.getD (i + 1) 0 ≤ 85))) ∧
    (∃ r, check_pairs buf l = some r) := by
  induction l with
  | nil => exact ⟨by simp [check_pairs], ⟨none, rfl⟩⟩
  | cons i rest ih =>
    have hi : i + 1 < buf.length := hl i (List.mem_cons_self _ _)
    have hrest : ∀ j ∈ rest, j + 1 < buf.length := fun j hj => hl j (List.mem_cons_of_mem _ hj)
    obtain ⟨ih1, ih2⟩ := ih hrest
    unfold check_pairs
    rw [tick_buf_read buf i (by omega), tick_buf_read buf (i + 1) hi]
    simp only [Option.some_bind, List.forall_mem_cons]
    by_cases hh : buf.getD i 0 < 40 ∨ buf.getD i 0 > 60
    · rw [if_pos hh]
      refine ⟨⟨fun h => absurd h (by simp), fun h => ?_⟩, ⟨_, rfl⟩⟩
      omega
    · rw [if_neg hh]
      by_cases hd : (15 ≤ buf.getD (i + 1) 0 ∧ buf.getD (i + 1) 0 ≤ 35) ∨
          (55 ≤ buf.getD (i + 1) 0 ∧ buf.getD (i + 1) 0 ≤ 85)
      · have hb : (!(decide (buf.getD (i + 1) 0 ≥ 15 ∧ buf.getD (i + 1) 0 ≤ 35) ||
            decide (buf.getD (i + 1) 0 ≥ 55 ∧ buf.getD (i + 1) 0 ≤ 85))) = false := by
          simp only [Bool.not_eq_false', Bool.or_eq_true, decide_eq_true_eq]
          exact hd
        rw [hb]
        simp only [Bool.false_eq_true, if_false]
        refine ⟨?_, ih2⟩
        rw [ih1]
        constructor
        · intro h
          exact ⟨⟨⟨by omega, by omega⟩, hd⟩, h⟩
        · intro h
          exact h.2
      · have hb : (!(decide (buf.getD (i + 1) 0 ≥ 15 ∧ buf.getD (i + 1) 0 ≤ 35) ||
            decide (buf.getD (i + 1) 0 ≥ 55 ∧ buf.getD (i + 1) 0 ≤ 85))) = true := by
          simp only [Bool.not_eq_true', Bool.or_eq_false_iff, decide_eq_false_iff_not]
          exact not_or.mp hd
        rw [hb]
        simp only [if_true]
        refine ⟨⟨fun h => absurd h (by simp), fun h => absurd h.1.2 hd⟩, ⟨_, rfl⟩⟩

/-- A rejection by the payload loop names a header pulse or a data pulse. -/
theorem check_pairs_rejection (buf : List Int) (l : List Nat) (r : read_result)
    (h : check_pairs buf l = some (some r)) :
    (∃ v p, r = .bad_header v p) ∨ (∃ v p, r = .bad_data v p) := by
  induction l with
  | nil => simp [check_pairs] at h
  | cons i rest ih =>
    unfold check_pairs at h
    cases h0 : buf[i]? with
    | none => rw [h0] at h; simp at h
    | some header =>
      rw [h0] at h
      simp only [Option.some_bind] at h
      split_ifs at h with h1
      · simp only [Option.some.injEq] at h
        exact Or.inl ⟨header, i, h.symm⟩
      · cases h2 : buf[i + 1]? with
        | none => rw [h2] at h; simp at h
        | some data =>
          rw [h2] at h
          simp only [Option.some_bind] at h
          split_ifs at h with h3
          · simp only [Option.some.injEq] at h
            exact Or.inr ⟨data, i, h.symm⟩
          · exact ih h

/-- The checks of `read_data` on a completed capture with an 83-entry
buffer, with the reads resolved. -/
theorem read_data_check_completed (s : init_response_info)
    (hlen : s.tick_buf.length = DHT_BUFFER_LENGTH) (hfin : s.finished ≠ 0)
    (hrun : s.running = 0) :
    read_data_check s =
      if s.tick_buf.getD 0 0 < 10 ∨ s.tick_buf.getD 0 0 > 50 then some .bad_first
      else if s.tick_buf.getD 1 0 < 65 ∨ s.tick_buf.getD 1 0 > 95 then some .bad_second_third
      else if s.tick_buf.getD 2 0 < 65 ∨ s.tick_buf.getD 2 0 > 95 then some .bad_second_third
      else (check_pairs s.tick_buf (for_i_lt DHT_BUFFER_LENGTH DHT_INIT_RESPONSE_LENGTH)).map
        fun r => match r with
          | some rejected => rejected
          | none => .ok := by
  have hlen' : s.tick_buf.length = 83 := hlen
  unfold read_data_check
  rw [if_neg (by
    intro h
    rcases h with h | h
    · exact h hrun
    · exact h hfin)]
  rw [tick_buf_read s.tick_buf 0 (by omega), tick_buf_read s.tick_buf 1 (by omega),
    tick_buf_read s.tick_buf 2 (by omega)]
  simp only [Option.some_bind]

theorem for_i_lt_payload_bounds :
    ∀ i ∈ for_i_lt DHT_BUFFER_LENGTH DHT_INIT_RESPONSE_LENGTH, 3 ≤ i ∧ i + 1 ≤ 82 := by
  rw [for_i_lt_payload]
  decide

/-- C11: for every completed capture (`finished` set, `running` clear, 83
buffer entries), `read_data` returns success exactly when pulse 0 lies in
10..50, pulses 1 and 2 lie in 65..95, every header pulse at 3, 5, ..., 81
lies in 40..60 and every data pulse at 4, 6, ..., 82 lies in 15..35 or in
55..85. The checks always end with an outcome (no read leaves the buffer),
the payload loop visits 40 pairs, and its indices `i`, `i + 1` stay within
3..82. -/
theorem read_data_accepts_iff (s : init_response_info)
    (hlen : s.tick_buf.length = DHT_BUFFER_LENGTH) (hfin : s.finished ≠ 0)
    (hrun : s.running = 0) :
    (read_data_check s = some .ok ↔
      (10 ≤ s.tick_buf.getD 0 0 ∧ s.tick_buf.getD 0 0 ≤ 50) ∧
      (65 ≤ s.tick_buf.getD 1 0 ∧ s.tick_buf.getD 1 0 ≤ 95) ∧
      (65 ≤ s.tick_buf.getD 2 0 ∧ s.tick_buf.getD 2 0 ≤ 95) ∧
      ∀ k, k < 40 →
        (40 ≤ s.tick_buf.getD (3 + 2 * k) 0 ∧ s.tick_buf.getD (3 + 2 * k) 0 ≤ 60) ∧
        ((15 ≤ s.tick_buf.getD (3 + 2 * k + 1) 0 ∧ s.tick_buf.getD (3 + 2 * k + 1) 0 ≤ 35) ∨
         (55 ≤ s.tick_buf.getD (3 + 2 * k + 1) 0 ∧
          s.tick_buf.getD (3 + 2 * k + 1) 0 ≤ 85))) ∧
    (∃ r, read_data_check s = some r) ∧
    (for_i_lt DHT_BUFFER_LENGTH DHT_INIT_RESPONSE_LENGTH).length = 40 ∧
    (∀ i ∈ for_i_lt DHT_BUFFER_LENGTH DHT_INIT_RESPONSE_LENGTH, 3 ≤ i ∧ i + 1 ≤ 82) := by
  have hlen' : s.tick_buf.length = 83 := hlen
  have hbound : ∀ i ∈ for_i_lt DHT_BUFFER_LENGTH DHT_INIT_RESPONSE_LENGTH,
      i + 1 < s.tick_buf.length := by
    intro i hi
    have := for_i_lt_payload_bounds i hi
    omega
  obtain ⟨hacc, r0, hr0⟩ := check_pairs_accepts s.tick_buf _ hbound
  have hpairs : check_pairs s.tick_buf (for_i_lt DHT_BUFFER_LENGTH DHT_INIT_RESPONSE_LENGTH) =
      some none ↔ ∀ k, k < 40 →
        (40 ≤ s.tick_buf.getD (3 + 2 * k) 0 ∧ s.tick_buf.getD (3 + 2 * k) 0 ≤ 60) ∧
        ((15 ≤ s.tick_buf.getD (3 + 2 * k + 1) 0 ∧ s.tick_buf.getD (3 + 2 * k + 1) 0 ≤ 35) ∨
         (55 ≤ s.tick_buf.getD (3 + 2 * k + 1) 0 ∧
          s.tick_buf.getD (3 + 2 * k + 1) 0 ≤ 85)) := by
    rw [hacc, for_i_lt_payload_map]
    constructor
    · intro h k hk
      exact h (3 + 2 * k) (List.mem_map.mpr ⟨k, List.mem_range.mpr hk, rfl⟩)
    · intro h i hi
      obtain ⟨k, hk, rfl⟩ := List.mem_map.mp hi
      exact h k (List.mem_range.mp hk)
  refine ⟨?_, ?_, ?_, for_i_lt_payload_bounds⟩
  · rw [read_data_check_completed s hlen hfin hrun, ← hpairs]
    split_ifs with h0 h1 h2
    · constructor
      · intro h; exact absurd h (by simp)
      · intro h; omega
    · constructor
      · intro h; exact absurd h (by simp)
      · intro h; omega
    · constructor
      · intro h; exact absurd h (by simp)
      · intro h; omega
    · constructor
      · intro h
        refine ⟨by omega, by omega, by omega, ?_⟩
        rw [hr0] at h ⊢
        cases r0 with
        | none => rfl
        | some rej =>
          simp only [Option.map_some', Option.some.injEq] at h
          subst h
          rcases check_pairs_rejection _ _ _ hr0 with ⟨v, p, hv⟩ | ⟨v, p, hv⟩ <;>
            exact absurd hv (by simp)
      · intro h
        rw [h.2.2.2]
        rfl
  · rw [read_data_check_completed s hlen hfin hrun]
    split_ifs
    · exact ⟨_, rfl⟩
    · exact ⟨_, rfl⟩
    · exact ⟨_, rfl⟩
    · rw [hr0]
      exact ⟨_, rfl⟩
  · rw [for_i_lt_payload]
    rfl

/-- C11 on the known-good trace, which keeps every band and is accepted, and
on the same capture with 61 ticks in the header pulse at index 3, which is
rejected. -/
theorem read_data_accepts_iff_witness :
    read_data_check known_good_capture = some .ok ∧
    read_data_check { known_good_capture with
      tick_buf := known_good_capture.tick_buf.set 3 61 } ≠ some .ok :=
  ⟨(read_data_accepts_iff known_good_capture (by decide) (by decide) (by decide)).1.2
      (by decide),
   fun h => absurd
    ((read_data_accepts_iff { known_good_capture with
        tick_buf := known_good_capture.tick_buf.set 3 61 }
      (by decide) (by decide) (by decide)).1.1 h)
    (by decide)⟩

/-- C12: for every completed capture (`finished` set, `running` clear, 83
buffer entries), if pulse 0 lies outside 10..50 then `read_data` ends with
"Bad length (first response pulse)" and returns -1, whatever the other
pulses are; if pulse 0 lies inside 10..50, bounds included, `read_data` does
not end with that rejection. -/
theorem read_data_first_pulse (s : init_response_info)
    (hlen : s.tick_buf.length = DHT_BUFFER_LENGTH) (hfin : s.finished ≠ 0)
    (hrun : s.running = 0) :
    (s.tick_buf.getD 0 0 < 10 ∨ s.tick_buf.getD 0 0 > 50 →
      read_data_check s = some .bad_first ∧ read_result.code .bad_first = -1) ∧
    (10 ≤ s.tick_buf.getD 0 0 ∧ s.tick_buf.getD 0 0 ≤ 50 →
      read_data_check s ≠ some .bad_first) := by
  rw [read_data_check_completed s hlen hfin hrun]
  constructor
  · intro h
    rw [if_pos h]
    exact ⟨rfl, rfl⟩
  · intro h
    rw [if_neg (by omega)]
    split_ifs
    · simp
    · simp
    · intro hc
      cases hcp : check_pairs s.tick_buf (for_i_lt DHT_BUFFER_LENGTH DHT_INIT_RESPONSE_LENGTH) with
      | none => rw [hcp] at hc; simp at hc
      | some r =>
        rw [hcp] at hc
        cases r with
        | none => simp at hc
        | some rej =>
          simp only [Option.map_some', Option.some.injEq] at hc
          subst hc
          rcases check_pairs_rejection _ _ _ hcp with ⟨v, p, hv⟩ | ⟨v, p, hv⟩ <;>
            exact absurd hv (by simp)

/-- C12 on the known-good trace with pulse 0 set to 9, to 51, to 10 and to 50:
the first two are rejected for the first response pulse, although all other
pulses keep their bands; the last two are accepted. -/
theorem read_data_first_pulse_witness :
    read_data_check { known_good_capture with
      tick_buf := known_good_capture.tick_buf.set 0 9 } = some .bad_first ∧
    read_data_check { known_good_capture with
      tick_buf := known_good_capture.tick_buf.set 0 51 } = some .bad_first ∧
    read_data_check { known_good_capture with
      tick_buf := known_good_capture.tick_buf.set 0 10 } ≠ some .bad_first ∧
    read_data_check { known_good_capture with
      tick_buf := known_good_capture.tick_buf.set 0 50 } ≠ some .bad_first :=
  ⟨((read_data_first_pulse { known_good_capture with
        tick_buf := known_good_capture.tick_buf.set 0 9 }
      (by decide) (by decide) (by decide)).1 (by decide)).1,
   ((read_data_first_pulse { known_good_capture with
        tick_buf := known_good_capture.tick_buf.set 0 51 }
      (by decide) (by decide) (by decide)).1 (by decide)).1,
   (read_data_first_pulse { known_good_capture with
        tick_buf := known_good_capture.tick_buf.set 0 10 }
      (by decide) (by decide) (by decide)).2 (by decide),
   (read_data_first_pulse { known_good_capture with
        tick_buf := known_good_capture.tick_buf.set 0 50 }
      (by decide) (by decide) (by decide)).2 (by decide)⟩

/-! ## Edge sampler, case by case -/

theorem sampler_ignores (s : init_response_info) (gpio level : Int) (ticks : Nat)
    (h : gpio ≠ DHT_GPIO_PORT ∨ level < 0 ∨ level > 1) :
    on_init_response_change s gpio level ticks = s := by
  unfold on_init_response_change
  rw [if_pos h]

theorem sampler_when_finished (s : init_response_info) (gpio level : Int) (ticks : Nat)
    (h : s.finished = 1) : on_init_response_change s gpio level ticks = s := by
  unfold on_init_response_change
  split_ifs <;> rfl

theorem sampler_starts (s : init_response_info) (gpio level : Int) (ticks : Nat)
    (hpin : gpio = DHT_GPIO_PORT) (hlevel : level = 0 ∨ level = 1) (hfin : s.finished ≠ 1)
    (hidx : s.tick_index < DHT_BUFFER_LENGTH) (hrun : s.running = 0) :
    on_init_response_change s gpio level ticks =
      { s with running := 1, tick_count := to_int32 ticks } := by
  unfold on_init_response_change
  rw [if_neg (by omega), if_neg hfin, if_pos hidx, if_pos hrun]

theorem sampler_stores (s : init_response_info) (gpio level : Int) (ticks : Nat)
    (hpin : gpio = DHT_GPIO_PORT) (hlevel : level = 0 ∨ level = 1) (hfin : s.finished ≠ 1)
    (hidx : s.tick_index < DHT_BUFFER_LENGTH) (hrun : s.running ≠ 0)
    (hin : 10 < measured_length s ticks ∧ measured_length s ticks < 100) :
    on_init_response_change s gpio level ticks =
      { s with
        tick_buf := s.tick_buf.set s.tick_index (measured_length s ticks)
        tick_count := to_int32 ticks
        tick_index := s.tick_index + 1 } := by
  unfold on_init_response_change
  rw [if_neg (by omega), if_neg hfin, if_pos hidx, if_neg hrun]
  dsimp only
  rw [if_pos (show to_int32 ((ticks : Int) - s.tick_count) > 10 ∧
    to_int32 ((ticks : Int) - s.tick_count) < 100 from hin)]
  rfl

theorem sampler_flags_error (s : init_response_info) (gpio level : Int) (ticks : Nat)
    (hpin : gpio = DHT_GPIO_PORT) (hlevel : level = 0 ∨ level = 1) (hfin : s.finished ≠ 1)
    (hidx : s.tick_index < DHT_BUFFER_LENGTH) (hrun : s.running ≠ 0)
    (hout : measured_length s ticks ≤ 10 ∨ measured_length s ticks ≥ 100) :
    on_init_response_change s gpio level ticks = { s with error := 1 } := by
  unfold on_init_response_change
  rw [if_neg (by omega), if_neg hfin, if_pos hidx, if_neg hrun]
  dsimp only
  rw [if_neg (show ¬ (to_int32 ((ticks : Int) - s.tick_count) > 10 ∧
    to_int32 ((ticks : Int) - s.tick_count) < 100) from by
      unfold measured_length at hout
      omega)]

theorem sampler_finishes (s : init_response_info) (gpio level : Int) (ticks : Nat)
    (hpin : gpio = DHT_GPIO_PORT) (hlevel : level = 0 ∨ level = 1) (hfin : s.finished ≠ 1)
    (hidx : ¬ s.tick_index < DHT_BUFFER_LENGTH) :
    on_init_response_change s gpio level ticks = { s with running := 0, finished := 1 } := by
  unfold on_init_response_change
  rw [if_neg (by omega), if_neg hfin, if_neg hidx]

theorem capture_window_when_finished (events : List edge_event) (s : init_response_info)
    (h : s.finished = 1) : capture_window s events = s := by
  induction events with
  | nil => rfl
  | cons e rest ih =>
    show capture_window (deliver s e) rest = s
    unfold deliver
    rw [sampler_when_finished s e.gpio e.level e.ticks h]
    exact ih

theorem to_int32_mod (x : Int) : to_int32 x % 2 ^ 32 = x % 2 ^ 32 := by
  unfold to_int32
  norm_num
  omega

theorem measured_length_of_diff (s : init_response_info) (ticks : Nat)
    (h0 : -(2 ^ 31) ≤ (ticks : Int) - s.tick_count) (h1 : (ticks : Int) - s.tick_count < 2 ^ 31) :
    measured_length s ticks = (ticks : Int) - s.tick_count := by
  unfold measured_length to_int32
  norm_num at h0 h1 ⊢
  omega

/-! ## Edge sampler: completion, stored pulses, errors, first event -/

/-- C13, counterexample: in the window `full_window` the last of its 84 edges
stores the 83rd duration. Right after it the cursor is 83, but `finished` is
still 0 and `running` still 1, and the next edge on the sensor pin changes
the state. -/
theorem finished_not_set_by_last_store :
    full_window.length = 84 ∧
    (capture_window (clear_response_info respinfo) full_window.dropLast).tick_index = 82 ∧
    (capture_window (clear_response_info respinfo) full_window).tick_index =
      DHT_BUFFER_LENGTH ∧
    (capture_window (clear_response_info respinfo) full_window).finished = 0 ∧
    (capture_window (clear_response_info respinfo) full_window).running = 1 ∧
    deliver (capture_window (clear_response_info respinfo) full_window)
        ⟨DHT_GPIO_PORT, 1, 4815⟩ ≠
      capture_window (clear_response_info respinfo) full_window := by
  decide

/-- A call of the callback that moves the cursor is a store: it was made
while sampling was running and the capture was not finished, it advances the
cursor by one and leaves `running`, `finished` and `error` as they were. -/
theorem sampler_cursor_moves (s : init_response_info) (gpio level : Int) (ticks : Nat)
    (h : (on_init_response_change s gpio level ticks).tick_index ≠ s.tick_index) :
    s.finished ≠ 1 ∧ s.running ≠ 0 ∧
    (on_init_response_change s gpio level ticks).tick_index = s.tick_index + 1 ∧
    (on_init_response_change s gpio level ticks).tick_buf =
      s.tick_buf.set s.tick_index (measured_length s ticks) ∧
    (on_init_response_change s gpio level ticks).running = s.running ∧
    (on_init_response_change s gpio level ticks).finished = s.finished ∧
    (on_init_response_change s gpio level ticks).error = s.error := by
  unfold on_init_response_change at h ⊢
  dsimp only at h ⊢
  split_ifs at h ⊢ with h1 h2 h3 h4 h5
  · exact absurd rfl h
  · exact absurd rfl h
  · exact absurd rfl h
  · exact ⟨h2, h4, rfl, rfl, rfl, rfl, rfl⟩
  · exact absurd rfl h
  · exact absurd rfl h

/-- The state after a run of events followed by one more event. -/
theorem capture_window_concat (s : init_response_info) (before : List edge_event)
    (last : edge_event) :
    capture_window s (before ++ [last]) = deliver (capture_window s before) last := by
  unfold capture_window
  rw [List.foldl_append]
  rfl

/-- C13, amended: for every sequence of edge events delivered to the sampler
starting from the reset state, once the cursor has reached the buffer length
the next event on the sensor pin with level 0 or 1 leaves `finished = 1` and
`running = 0` and changes neither buffer, cursor, reference nor `error`; every
event after that leaves the state unchanged. Right after the event that
stores the 83rd duration (the last event of a sequence that brings the cursor
from below 83 to 83) the state still has `finished = 0` and `running = 1`;
that event found the cursor at 82 and wrote the measured length there. -/
theorem capture_completes_on_next_edge (s0 : init_response_info) (events : List edge_event)
    (e : edge_event) (more : List edge_event)
    (hfull : (capture_window (clear_response_info s0) events).tick_index = DHT_BUFFER_LENGTH)
    (hpin : e.gpio = DHT_GPIO_PORT) (hlevel : e.level = 0 ∨ e.level = 1) :
    (∀ before last, events = before ++ [last] →
      (capture_window (clear_response_info s0) before).tick_index ≠ DHT_BUFFER_LENGTH →
      (capture_window (clear_response_info s0) events).finished = 0 ∧
      (capture_window (clear_response_info s0) events).running = 1 ∧
      (capture_window (clear_response_info s0) before).tick_index = 82 ∧
      (capture_window (clear_response_info s0) events).tick_buf =
        (capture_window (clear_response_info s0) before).tick_buf.set 82
          (measured_length (capture_window (clear_response_info s0) before) last.ticks) ∧
      deliver (capture_window (clear_response_info s0) events) e ≠
        capture_window (clear_response_info s0) events) ∧
    (deliver (capture_window (clear_response_info s0) events) e).finished = 1 ∧
    (deliver (capture_window (clear_response_info s0) events) e).running = 0 ∧
    (deliver (capture_window (clear_response_info s0) events) e).tick_buf =
      (capture_window (clear_response_info s0) events).tick_buf ∧
    (deliver (capture_window (clear_response_info s0) events) e).tick_index =
      (capture_window (clear_response_info s0) events).tick_index ∧
    (deliver (capture_window (clear_response_info s0) events) e).tick_count =
      (capture_window (clear_response_info s0) events).tick_count ∧
    (deliver (capture_window (clear_response_info s0) events) e).error =
      (capture_window (clear_response_info s0) events).error ∧
    capture_window (deliver (capture_window (clear_response_info s0) events) e) more =
      deliver (capture_window (clear_response_info s0) events) e := by
  have h83 : DHT_BUFFER_LENGTH = 83 := rfl
  refine ⟨?_, ?_⟩
  · intro before last hsplit hbefore
    subst hsplit
    rw [capture_window_concat] at hfull ⊢
    obtain ⟨-, hrun, hfin⟩ := capture_inv_window before _ (capture_inv_clear s0)
    generalize capture_window (clear_response_info s0) before = t at hfull hbefore hrun hfin ⊢
    have hmove : (on_init_response_change t last.gpio last.level last.ticks).tick_index ≠
        t.tick_index := by
      intro hc
      exact hbefore (hc.symm.trans hfull)
    obtain ⟨hf1, hr0, hidx, hbuf, hrun2, hfin2, -⟩ :=
      sampler_cursor_moves t last.gpio last.level last.ticks hmove
    have hf0 : t.finished = 0 := by
      rcases hfin with hf | hf
      · exact hf
      · exact absurd hf.1 hf1
    have hr1 : t.running = 1 := by
      rcases hrun with hr | hr
      · exact absurd hr hr0
      · exact hr
    have h82 : t.tick_index = 82 := by
      have hfull2 : (on_init_response_change t last.gpio last.level last.ticks).tick_index =
          DHT_BUFFER_LENGTH := hfull
      rw [hidx, h83] at hfull2
      omega
    have hfa : (deliver t last).finished = 0 := hfin2.trans hf0
    refine ⟨hfa, hrun2.trans hr1, h82, ?_, ?_⟩
    · show (on_init_response_change t last.gpio last.level last.ticks).tick_buf = _
      rw [hbuf, h82]
    · intro hc
      have hstep := sampler_finishes (deliver t last) e.gpio e.level e.ticks hpin hlevel
        (by rw [hfa]; decide) (by rw [hfull]; exact Nat.lt_irrefl _)
      have hfe : (deliver (deliver t last) e).finished = 1 := by
        unfold deliver at hstep ⊢
        rw [hstep]
      rw [hc, hfa] at hfe
      exact absurd hfe (by decide)
  obtain ⟨-, -, hfin⟩ := capture_inv_window events _ (capture_inv_clear s0)
  generalize capture_window (clear_response_info s0) events = s at hfull hfin ⊢
  unfold deliver
  rcases hfin with hf | hf
  · have hstep := sampler_finishes s e.gpio e.level e.ticks hpin hlevel (by omega) (by omega)
    rw [hstep]
    exact ⟨rfl, rfl, rfl, rfl, rfl, rfl, capture_window_when_finished more _ rfl⟩
  · have hstep := sampler_when_finished s e.gpio e.level e.ticks hf.1
    rw [hstep]
    exact ⟨hf.1, hf.2.1, rfl, rfl, rfl, rfl, capture_window_when_finished more _ hf.1⟩

/-- C13, amended, on the window `full_window`, whose last edge (at 4765) stores
the 83rd duration, followed by the edge that ends the transmission and by one
more edge. -/
theorem capture_completes_on_next_edge_witness :
    (capture_window (clear_response_info respinfo) full_window).finished = 0 ∧
    (capture_window (clear_response_info respinfo) full_window).running = 1 ∧
    (deliver (capture_window (clear_response_info respinfo) full_window)
      ⟨DHT_GPIO_PORT, 1, 4815⟩).finished = 1 ∧
    (deliver (capture_window (clear_response_info respinfo) full_window)
      ⟨DHT_GPIO_PORT, 1, 4815⟩).running = 0 ∧
    capture_window (deliver (capture_window (clear_response_info respinfo) full_window)
        ⟨DHT_GPIO_PORT, 1, 4815⟩) [⟨DHT_GPIO_PORT, 0, 4900⟩] =
      deliver (capture_window (clear_response_info respinfo) full_window)
        ⟨DHT_GPIO_PORT, 1, 4815⟩ :=
  have h := capture_completes_on_next_edge respinfo full_window ⟨DHT_GPIO_PORT, 1, 4815⟩
    [⟨DHT_GPIO_PORT, 0, 4900⟩] (by decide) (by decide) (by decide)
  have h0 := h.1 full_window.dropLast ⟨DHT_GPIO_PORT, 1, 4765⟩ (by decide) (by decide)
  ⟨h0.1, h0.2.1, h.2.1, h.2.2.1, h.2.2.2.2.2.2.2⟩

/-- C14, counterexample: `running_state` is running, not finished, with
cursor 3 and reference 1180. An alert on the sensor pin with level 2 (the
watchdog level) and time stamp 1200 has duration 20, but the sampler ignores
it: the state is unchanged and entry 3 of the buffer is still 0. -/
theorem watchdog_alert_not_stored :
    running_state.running = 1 ∧ running_state.finished = 0 ∧
    running_state.tick_index = 3 ∧ running_state.tick_count = 1180 ∧
    measured_length running_state 1200 = 20 ∧
    on_init_response_change running_state DHT_GPIO_PORT 2 1200 = running_state ∧
    (on_init_response_change running_state DHT_GPIO_PORT 2 1200).tick_buf[3]? = some 0 ∧
    (on_init_response_change running_state DHT_GPIO_PORT 2 1200).tick_index ≠ 3 + 1 := by
  decide

/-- C14, amended: for every state with `running` set, `finished = 0`, an
83-entry buffer and cursor `c < 83`, and every event on the sensor pin with
level 0 or 1 whose duration `d` (time stamp minus reference, as the callback
computes it) satisfies `10 < d < 100`, the sampler stores `d` at `tick_buf[c]`,
sets the cursor to `c + 1` and the reference to the time stamp of the event,
and leaves every other buffer entry and the flags `running`, `finished` and
`error` unchanged. -/
theorem sampler_stores_in_range_pulse (s : init_response_info) (gpio level : Int)
    (ticks : Nat) (d : Int)
    (hlen : s.tick_buf.length = DHT_BUFFER_LENGTH) (hrun : s.running ≠ 0)
    (hfin : s.finished = 0) (hidx : s.tick_index < DHT_BUFFER_LENGTH)
    (hpin : gpio = DHT_GPIO_PORT) (hlevel : level = 0 ∨ level = 1)
    (hd : d = measured_length s ticks) (hin : 10 < d ∧ d < 100) :
    (on_init_response_change s gpio level ticks).tick_buf[s.tick_index]? = some d ∧
    (∀ i, i ≠ s.tick_index →
      (on_init_response_change s gpio level ticks).tick_buf[i]? = s.tick_buf[i]?) ∧
    (on_init_response_change s gpio level ticks).tick_buf.length = s.tick_buf.length ∧
    (on_init_response_change s gpio level ticks).tick_index = s.tick_index + 1 ∧
    (on_init_response_change s gpio level ticks).tick_count = to_int32 ticks ∧
    (on_init_response_change s gpio level ticks).tick_count % 2 ^ 32 = (ticks : Int) % 2 ^ 32 ∧
    (on_init_response_change s gpio level ticks).running = s.running ∧
    (on_init_response_change s gpio level ticks).finished = s.finished ∧
    (on_init_response_change s gpio level ticks).error = s.error := by
  subst hd
  rw [sampler_stores s gpio level ticks hpin hlevel (by omega) hidx hrun hin]
  refine ⟨?_, ?_, ?_, rfl, rfl, to_int32_mod _, rfl, rfl, rfl⟩
  · exact List.getElem?_set_self (by omega)
  · intro i hi
    exact List.getElem?_set_ne (Ne.symm hi)
  · exact List.length_set _ _ _

/-- C14, amended, on `running_state` and the edge at time 1200, 20 ticks
after the reference 1180. -/
theorem sampler_stores_in_range_pulse_witness :
    (1200 : Int) - running_state.tick_count = 20 ∧
    (on_init_response_change running_state DHT_GPIO_PORT 1 1200).tick_buf[3]? = some 20 ∧
    (on_init_response_change running_state DHT_GPIO_PORT 1 1200).tick_index = 3 + 1 ∧
    (on_init_response_change running_state DHT_GPIO_PORT 1 1200).tick_count = 1200 :=
  have h := sampler_stores_in_range_pulse running_state DHT_GPIO_PORT 1 1200 20
    (by decide) (by decide) (by decide) (by decide) rfl (by decide) (by decide) (by decide)
  ⟨by decide, h.1, h.2.2.2.1, h.2.2.2.2.1.trans (by decide)⟩

/-- C15, counterexample: on `running_state` (reference 1180) an alert on the
sensor pin with level 2 and time stamp 1185 has duration 5, but the sampler
ignores it and `error` stays 0. -/
theorem watchdog_alert_sets_no_error :
    running_state.running = 1 ∧ running_state.finished = 0 ∧
    running_state.tick_index = 3 ∧ running_state.error = 0 ∧
    measured_length running_state 1185 = 5 ∧
    (on_init_response_change running_state DHT_GPIO_PORT 2 1185).error = 0 ∧
    (on_init_response_change running_state DHT_GPIO_PORT 2 1185).error ≠ 1 := by
  decide

/-- C15, amended: for every state with `running` set, `finished = 0` and
cursor below 83, and every event on the sensor pin with level 0 or 1 whose
duration `d` (time stamp minus reference, as the callback computes it)
satisfies `d ≤ 10` or `d ≥ 100`, the sampler sets `error = 1` and leaves the
reference, the cursor, the whole buffer and the flags `running` and
`finished` unchanged. -/
theorem sampler_flags_out_of_range_pulse (s : init_response_info) (gpio level : Int)
    (ticks : Nat) (d : Int)
    (hrun : s.running ≠ 0) (hfin : s.finished = 0) (hidx : s.tick_index < DHT_BUFFER_LENGTH)
    (hpin : gpio = DHT_GPIO_PORT) (hlevel : level = 0 ∨ level = 1)
    (hd : d = measured_length s ticks) (hout : d ≤ 10 ∨ d ≥ 100) :
    (on_init_response_change s gpio level ticks).error = 1 ∧
    (on_init_response_change s gpio level ticks).tick_count = s.tick_count ∧
    (on_init_response_change s gpio level ticks).tick_index = s.tick_index ∧
    (on_init_response_change s gpio level ticks).tick_buf = s.tick_buf ∧
    (on_init_response_change s gpio level ticks).running = s.running ∧
    (on_init_response_change s gpio level ticks).finished = s.finished := by
  subst hd
  rw [sampler_flags_error s gpio level ticks hpin hlevel (by omega) hidx hrun hout]
  exact ⟨rfl, rfl, rfl, rfl, rfl, rfl⟩

/-- C15, amended, on `running_state` (reference 1180) with an edge 5 ticks
and an edge 120 ticks after the reference. -/
theorem sampler_flags_out_of_range_pulse_witness :
    (on_init_response_change running_state DHT_GPIO_PORT 0 1185).error = 1 ∧
    (on_init_response_change running_state DHT_GPIO_PORT 0 1185).tick_index = 3 ∧
    (on_init_response_change running_state DHT_GPIO_PORT 0 1300).error = 1 ∧
    (on_init_response_change running_state DHT_GPIO_PORT 0 1300).tick_count = 1180 :=
  have h1 := sampler_flags_out_of_range_pulse running_state DHT_GPIO_PORT 0 1185 5
    (by decide) (by decide) (by decide) rfl (by decide) (by decide) (by decide)
  have h2 := sampler_flags_out_of_range_pulse running_state DHT_GPIO_PORT 0 1300 120
    (by decide) (by decide) (by decide) rfl (by decide) (by decide) (by decide)
  ⟨h1.1, h1.2.2.1.trans (by decide), h2.1, h2.2.1.trans (by decide)⟩

/-- C16: for the reset state (cursor 0, `running`, `finished` and `error`
all 0) and every event on the sensor pin with level 0 or 1, the sampler sets
`running = 1` and the reference to the time stamp of the event, leaves the
buffer and the cursor as they are, and leaves `finished` and `error` 0. -/
theorem sampler_first_event (s : init_response_info) (gpio level : Int) (ticks : Nat)
    (hidx : s.tick_index = 0) (hrun : s.running = 0) (hfin : s.finished = 0)
    (herr : s.error = 0) (hpin : gpio = DHT_GPIO_PORT) (hlevel : level = 0 ∨ level = 1) :
    (on_init_response_change s gpio level ticks).running = 1 ∧
    (on_init_response_change s gpio level ticks).tick_count = to_int32 ticks ∧
    (on_init_response_change s gpio level ticks).tick_count % 2 ^ 32 = (ticks : Int) % 2 ^ 32 ∧
    (ticks < 2 ^ 31 → (on_init_response_change s gpio level ticks).tick_count = ticks) ∧
    (on_init_response_change s gpio level ticks).tick_buf = s.tick_buf ∧
    (on_init_response_change s gpio level ticks).tick_index = 0 ∧
    (on_init_response_change s gpio level ticks).finished = 0 ∧
    (on_init_response_change s gpio level ticks).error = 0 := by
  have hlt : s.tick_index < DHT_BUFFER_LENGTH := by
    rw [hidx]
    decide
  rw [sampler_starts s gpio level ticks hpin hlevel (by omega) hlt hrun]
  refine ⟨rfl, rfl, to_int32_mod _, ?_, rfl, hidx, hfin, herr⟩
  intro ht
  exact to_int32_of_small _ (by omega) (by exact_mod_cast ht)

/-- C16 on the state that `clear_response_info` leaves, with a falling edge
at time 1000. -/
theorem sampler_first_event_witness :
    (on_init_response_change (clear_response_info respinfo) DHT_GPIO_PORT 0 1000).running = 1 ∧
    (on_init_response_change (clear_response_info respinfo) DHT_GPIO_PORT 0 1000).tick_count =
      1000 ∧
    (on_init_response_change (clear_response_info respinfo) DHT_GPIO_PORT 0 1000).tick_index =
      0 :=
  have h := sampler_first_event (clear_response_info respinfo) DHT_GPIO_PORT 0 1000
    rfl rfl rfl rfl rfl (by decide)
  ⟨h.1, h.2.2.2.1 (by decide), h.2.2.2.2.2.1⟩

/-- C17: for every capture state with `finished = 1` and every event (any
pin, any level, any time stamp), the sampler returns the state unchanged. -/
theorem sampler_ignores_when_finished (s : init_response_info) (gpio level : Int)
    (ticks : Nat) (h : s.finished = 1) :
    on_init_response_change s gpio level ticks = s :=
  sampler_when_finished s gpio level ticks h

/-- C17 on the known-good capture with an edge on the sensor pin, an alert
with level 2 and an edge on another pin. -/
theorem sampler_ignores_when_finished_witness :
    on_init_response_change known_good_capture DHT_GPIO_PORT 1 5000 = known_good_capture ∧
    on_init_response_change known_good_capture DHT_GPIO_PORT 2 5000 = known_good_capture ∧
    on_init_response_change known_good_capture 17 0 5020 = known_good_capture :=
  ⟨sampler_ignores_when_finished known_good_capture DHT_GPIO_PORT 1 5000 (by decide),
   sampler_ignores_when_finished known_good_capture DHT_GPIO_PORT 2 5000 (by decide),
   sampler_ignores_when_finished known_good_capture 17 0 5020 (by decide)⟩

/-! ## Buffer invariant -/

theorem buffer_inv_clear (s : init_response_info)
    (hlen : s.tick_buf.length = DHT_BUFFER_LENGTH) : buffer_inv (clear_response_info s) := by
  refine ⟨hlen, Nat.zero_le _, ?_⟩
  intro i hi
  exact absurd hi (Nat.not_lt_zero i)

/-- What one call of the callback does to buffer and cursor: nothing, or one
store of the measured length, which lies strictly between 10 and 100, at the
cursor, which lies below 83 and moves on by one. -/
theorem sampler_buffer_effect (s : init_response_info) (gpio level : Int) (ticks : Nat) :
    ((on_init_response_change s gpio level ticks).tick_buf = s.tick_buf ∧
      (on_init_response_change s gpio level ticks).tick_index = s.tick_index) ∨
    (s.tick_index < DHT_BUFFER_LENGTH ∧
      10 < measured_length s ticks ∧ measured_length s ticks < 100 ∧
      (on_init_response_change s gpio level ticks).tick_buf =
        s.tick_buf.set s.tick_index (measured_length s ticks) ∧
      (on_init_response_change s gpio level ticks).tick_index = s.tick_index + 1) := by
  by_cases h1 : gpio ≠ DHT_GPIO_PORT ∨ level < 0 ∨ level > 1
  · rw [sampler_ignores s gpio level ticks h1]
    exact Or.inl ⟨rfl, rfl⟩
  · have hpin : gpio = DHT_GPIO_PORT := by
      by_contra hc
      exact h1 (Or.inl hc)
    have hlevel : level = 0 ∨ level = 1 := by omega
    by_cases h2 : s.finished = 1
    · rw [sampler_when_finished s gpio level ticks h2]
      exact Or.inl ⟨rfl, rfl⟩
    · by_cases h3 : s.tick_index < DHT_BUFFER_LENGTH
      · by_cases h4 : s.running = 0
        · rw [sampler_starts s gpio level ticks hpin hlevel h2 h3 h4]
          exact Or.inl ⟨rfl, rfl⟩
        · by_cases h5 : 10 < measured_length s ticks ∧ measured_length s ticks < 100
          · rw [sampler_stores s gpio level ticks hpin hlevel h2 h3 h4 h5]
            exact Or.inr ⟨h3, h5.1, h5.2, rfl, rfl⟩
          · rw [sampler_flags_error s gpio level ticks hpin hlevel h2 h3 h4 (by omega)]
            exact Or.inl ⟨rfl, rfl⟩
      · rw [sampler_finishes s gpio level ticks hpin hlevel h2 h3]
        exact Or.inl ⟨rfl, rfl⟩

theorem buffer_inv_step (s : init_response_info) (gpio level : Int) (ticks : Nat)
    (h : buffer_inv s) : buffer_inv (on_init_response_change s gpio level ticks) := by
  obtain ⟨hlen, hidx, hent⟩ := h
  rcases sampler_buffer_effect s gpio level ticks with ⟨hb, hi⟩ | ⟨hlt, h10, h100, hb, hi⟩
  · unfold buffer_inv
    rw [hb, hi]
    exact ⟨hlen, hidx, hent⟩
  · unfold buffer_inv
    rw [hb, hi]
    refine ⟨by rw [List.length_set]; exact hlen, by omega, ?_⟩
    intro i hilt
    rw [List.getD_eq_getElem?_getD]
    by_cases hi_eq : i = s.tick_index
    · subst hi_eq
      rw [List.getElem?_set_self (by omega)]
      exact ⟨h10, h100⟩
    · rw [List.getElem?_set_ne (Ne.symm hi_eq), ← List.getD_eq_getElem?_getD]
      exact hent i (by omega)

theorem buffer_inv_window (events : List edge_event) (s : init_response_info)
    (h : buffer_inv s) : buffer_inv (capture_window s events) := by
  induction events generalizing s with
  | nil => exact h
  | cons e rest ih =>
    exact ih _ (buffer_inv_step s e.gpio e.level e.ticks h)

theorem take_succ_set (l : List Int) (n : Nat) (a : Int) (h : n < l.length) :
    (l.set n a).take (n + 1) = l.take n ++ [a] := by
  rw [List.take_succ, List.getElem?_set_self h, List.set_take,
    List.set_eq_of_length_le (by rw [List.length_take]; omega)]
  rfl

/-- One call of the callback either meets every condition for a store and
stores the measured length, or leaves buffer and cursor as they are. -/
theorem sampler_store_cases (s : init_response_info) (e : edge_event) :
    ((e.gpio = DHT_GPIO_PORT ∧ (e.level = 0 ∨ e.level = 1) ∧ s.finished ≠ 1 ∧
        s.tick_index < DHT_BUFFER_LENGTH ∧ s.running ≠ 0 ∧
        10 < measured_length s e.ticks ∧ measured_length s e.ticks < 100) ∧
      (deliver s e).tick_buf = s.tick_buf.set s.tick_index (measured_length s e.ticks) ∧
      (deliver s e).tick_index = s.tick_index + 1) ∨
    (¬ (e.gpio = DHT_GPIO_PORT ∧ (e.level = 0 ∨ e.level = 1) ∧ s.finished ≠ 1 ∧
        s.tick_index < DHT_BUFFER_LENGTH ∧ s.running ≠ 0 ∧
        10 < measured_length s e.ticks ∧ measured_length s e.ticks < 100) ∧
      (deliver s e).tick_buf = s.tick_buf ∧ (deliver s e).tick_index = s.tick_index) := by
  unfold deliver
  by_cases h1 : e.gpio ≠ DHT_GPIO_PORT ∨ e.level < 0 ∨ e.level > 1
  · rw [sampler_ignores s e.gpio e.level e.ticks h1]
    refine Or.inr ⟨?_, rfl, rfl⟩
    rintro ⟨hp, hl, -⟩
    rcases h1 with h | h
    · exact h hp
    · omega
  · have hpin : e.gpio = DHT_GPIO_PORT := by
      by_contra hc
      exact h1 (Or.inl hc)
    have hlevel : e.level = 0 ∨ e.level = 1 := by omega
    by_cases h2 : s.finished = 1
    · rw [sampler_when_finished s e.gpio e.level e.ticks h2]
      exact Or.inr ⟨fun hc => hc.2.2.1 h2, rfl, rfl⟩
    · by_cases h3 : s.tick_index < DHT_BUFFER_LENGTH
      · by_cases h4 : s.running = 0
        · rw [sampler_starts s e.gpio e.level e.ticks hpin hlevel h2 h3 h4]
          exact Or.inr ⟨fun hc => hc.2.2.2.2.1 h4, rfl, rfl⟩
        · by_cases h5 : 10 < measured_length s e.ticks ∧ measured_length s e.ticks < 100
          · rw [sampler_stores s e.gpio e.level e.ticks hpin hlevel h2 h3 h4 h5]
            exact Or.inl ⟨⟨hpin, hlevel, h2, h3, h4, h5.1, h5.2⟩, rfl, rfl⟩
          · rw [sampler_flags_error s e.gpio e.level e.ticks hpin hlevel h2 h3 h4 (by omega)]
            exact Or.inr ⟨fun hc => h5 ⟨hc.2.2.2.2.2.1, hc.2.2.2.2.2.2⟩, rfl, rfl⟩
      · rw [sampler_finishes s e.gpio e.level e.ticks hpin hlevel h2 h3]
        exact Or.inr ⟨fun hc => h3 hc.2.2.2.1, rfl, rfl⟩

/-- The entries below the cursor after a run of events: those that were
there before, followed by the log of the stored durations. -/
theorem stored_prefix_window (events : List edge_event) (s : init_response_info)
    (h : buffer_inv s) :
    (capture_window s events).tick_buf.take (capture_window s events).tick_index =
      s.tick_buf.take s.tick_index ++ measured_log s events := by
  induction events generalizing s with
  | nil =>
    show s.tick_buf.take s.tick_index = s.tick_buf.take s.tick_index ++ []
    rw [List.append_nil]
  | cons e rest ih =>
    have hstep : buffer_inv (deliver s e) := buffer_inv_step s e.gpio e.level e.ticks h
    have hih := ih (deliver s e) hstep
    show (capture_window (deliver s e) rest).tick_buf.take
        (capture_window (deliver s e) rest).tick_index = _
    have hcons : measured_log s (e :: rest) =
        if e.gpio = DHT_GPIO_PORT ∧ (e.level = 0 ∨ e.level = 1) ∧ s.finished ≠ 1 ∧
            s.tick_index < DHT_BUFFER_LENGTH ∧ s.running ≠ 0 ∧
            10 < measured_length s e.ticks ∧ measured_length s e.ticks < 100 then
          measured_length s e.ticks :: measured_log (deliver s e) rest
        else measured_log (deliver s e) rest := rfl
    rw [hih, hcons]
    rcases sampler_store_cases s e with ⟨hc, hb, hi⟩ | ⟨hc, hb, hi⟩
    · have ht : (deliver s e).tick_buf.take (deliver s e).tick_index =
          s.tick_buf.take s.tick_index ++ [measured_length s e.ticks] := by
        rw [hb, hi]
        exact take_succ_set _ _ _ (by rw [h.1]; exact hc.2.2.2.1)
      rw [if_pos hc, ht, List.append_assoc]
      rfl
    · rw [if_neg hc, hb, hi]

theorem char_cell_holds (v : Int) (h0 : 10 < v) (h1 : v < 100) :
    (to_uchar v : Int) = v ∧ to_schar v = v := by
  unfold to_uchar to_schar
  constructor <;> omega

/-- C18: in every state reached from the reset state (83-entry buffer) by
sampler events, the buffer entries below the cursor are, in order, the
durations measured on the events that were stored (`measured_log`); every
one of them lies strictly between 10 and 100 and is unchanged by a
conversion to `unsigned char` or to `signed char`; and one further event
either leaves buffer and cursor as they are or stores at the cursor exactly
the duration measured for that event, which then lies strictly between 10
and 100. -/
theorem stored_durations_in_range (s0 : init_response_info) (events : List edge_event)
    (e : edge_event) (hlen : s0.tick_buf.length = DHT_BUFFER_LENGTH) :
    (capture_window (clear_response_info s0) events).tick_buf.take
        (capture_window (clear_response_info s0) events).tick_index =
      measured_log (clear_response_info s0) events ∧
    (∀ i, i < (capture_window (clear_response_info s0) events).tick_index →
      10 < (capture_window (clear_response_info s0) events).tick_buf.getD i 0 ∧
      (capture_window (clear_response_info s0) events).tick_buf.getD i 0 < 100 ∧
      (to_uchar ((capture_window (clear_response_info s0) events).tick_buf.getD i 0) : Int) =
        (capture_window (clear_response_info s0) events).tick_buf.getD i 0 ∧
      to_schar ((capture_window (clear_response_info s0) events).tick_buf.getD i 0) =
        (capture_window (clear_response_info s0) events).tick_buf.getD i 0) ∧
    (((deliver (capture_window (clear_response_info s0) events) e).tick_buf =
        (capture_window (clear_response_info s0) events).tick_buf ∧
      (deliver (capture_window (clear_response_info s0) events) e).tick_index =
        (capture_window (clear_response_info s0) events).tick_index) ∨
     (10 < measured_length (capture_window (clear_response_info s0) events) e.ticks ∧
      measured_length (capture_window (clear_response_info s0) events) e.ticks < 100 ∧
      (deliver (capture_window (clear_response_info s0) events) e).tick_buf[
          (capture_window (clear_response_info s0) events).tick_index]? =
        some (measured_length (capture_window (clear_response_info s0) events) e.ticks) ∧
      (deliver (capture_window (clear_response_info s0) events) e).tick_index =
        (capture_window (clear_response_info s0) events).tick_index + 1)) := by
  have hinv := buffer_inv_window events _ (buffer_inv_clear s0 hlen)
  have hlog := stored_prefix_window events _ (buffer_inv_clear s0 hlen)
  have hnil : (clear_response_info s0).tick_buf.take (clear_response_info s0).tick_index =
      [] := rfl
  rw [hnil, List.nil_append] at hlog
  refine ⟨hlog, ?_⟩
  clear hlog hnil
  generalize capture_window (clear_response_info s0) events = s at hinv ⊢
  obtain ⟨hl, hidx, hent⟩ := hinv
  constructor
  · intro i hi
    obtain ⟨h10, h100⟩ := hent i hi
    obtain ⟨hu, hs⟩ := char_cell_holds _ h10 h100
    exact ⟨h10, h100, hu, hs⟩
  · unfold deliver
    rcases sampler_buffer_effect s e.gpio e.level e.ticks with hsame | ⟨hlt, h10, h100, hb, hi⟩
    · exact Or.inl hsame
    · refine Or.inr ⟨h10, h100, ?_, hi⟩
      rw [hb]
      exact List.getElem?_set_self (by omega)

/-- C18 on the clean window of the known-good trace: the 83 stored entries
are the 83 pulse lengths of the trace, the first three being 20, 80 and 80. -/
theorem stored_durations_in_range_witness :
    (capture_window (clear_response_info respinfo) clean_window).tick_index = 83 ∧
    measured_log (clear_response_info respinfo) clean_window =
      known_good_lengths.map Int.ofNat ∧
    (capture_window (clear_response_info respinfo) clean_window).tick_buf.take
        (capture_window (clear_response_info respinfo) clean_window).tick_index =
      measured_log (clear_response_info respinfo) clean_window ∧
    (10 < (capture_window (clear_response_info respinfo) clean_window).tick_buf.getD 82 0 ∧
      (capture_window (clear_response_info respinfo) clean_window).tick_buf.getD 82 0 < 100) ∧
    (capture_window (clear_response_info respinfo) clean_window).tick_buf.take 3 =
      [20, 80, 80] :=
  have h := stored_durations_in_range respinfo clean_window ⟨DHT_GPIO_PORT, 0, 9000⟩
    (by decide)
  ⟨by decide, by decide, h.1, ⟨(h.2.1 82 (by decide)).1, (h.2.1 82 (by decide)).2.1⟩,
    by decide⟩

/-- C19: the buffer has 83 entries, the 3 response pulses and 2 pulses for
each of the 40 payload bits. In every state reached from the reset state by
sampler events the buffer keeps its 83 entries and the cursor lies in 0..83;
one further event either leaves the buffer as it is or writes one entry, at
the cursor, which then lies in 0..82, and no other entry changes. -/
theorem buffer_capacity (s0 : init_response_info) (events : List edge_event)
    (e : edge_event) (hlen : s0.tick_buf.length = DHT_BUFFER_LENGTH) :
    DHT_BUFFER_LENGTH = 83 ∧ DHT_BUFFER_LENGTH = DHT_INIT_RESPONSE_LENGTH + 2 * 40 ∧
    respinfo.tick_buf.length = 83 ∧
    (capture_window (clear_response_info s0) events).tick_buf.length = 83 ∧
    0 ≤ (capture_window (clear_response_info s0) events).tick_index ∧
    (capture_window (clear_response_info s0) events).tick_index ≤ 83 ∧
    ((deliver (capture_window (clear_response_info s0) events) e).tick_buf =
        (capture_window (clear_response_info s0) events).tick_buf ∨
     ((capture_window (clear_response_info s0) events).tick_index ≤ 82 ∧
      ∃ v, (deliver (capture_window (clear_response_info s0) events) e).tick_buf =
        (capture_window (clear_response_info s0) events).tick_buf.set
          (capture_window (clear_response_info s0) events).tick_index v)) ∧
    (∀ i, i ≠ (capture_window (clear_response_info s0) events).tick_index →
      (deliver (capture_window (clear_response_info s0) events) e).tick_buf[i]? =
        (capture_window (clear_response_info s0) events).tick_buf[i]?) := by
  have hinv := buffer_inv_window events _ (buffer_inv_clear s0 hlen)
  generalize capture_window (clear_response_info s0) events = s at hinv ⊢
  obtain ⟨hl, hidx, -⟩ := hinv
  have h83 : DHT_BUFFER_LENGTH = 83 := rfl
  refine ⟨rfl, rfl, by decide, hl.trans h83, Nat.zero_le _, by omega, ?_, ?_⟩
  · unfold deliver
    rcases sampler_buffer_effect s e.gpio e.level e.ticks with hsame | ⟨hlt, -, -, hb, -⟩
    · exact Or.inl hsame.1
    · exact Or.inr ⟨by omega, _, hb⟩
  · intro i hi
    unfold deliver
    rcases sampler_buffer_effect s e.gpio e.level e.ticks with hsame | ⟨-, -, -, hb, -⟩
    · rw [hsame.1]
    · rw [hb]
      exact List.getElem?_set_ne (Ne.symm hi)

/-- C19 on the clean window of the known-good trace, followed by one more
edge. -/
theorem buffer_capacity_witness :
    (capture_window (clear_response_info respinfo) clean_window).tick_buf.length = 83 ∧
    (capture_window (clear_response_info respinfo) clean_window).tick_index ≤ 83 :=
  have h := buffer_capacity respinfo clean_window ⟨DHT_GPIO_PORT, 0, 9000⟩ (by decide)
  ⟨h.2.2.2.1, h.2.2.2.2.2.1⟩

/-! ## Reset -/

/-- C20: from every capture state `clear_response_info` yields cursor 0,
reference 0 and `running`, `finished` and `error` all 0, the buffer being
kept; and `read_data` resets before the first event of its window reaches
the callback: with no event it leaves the reset state, with events it leaves
what the callback makes of the reset state, and nothing of the cursor,
reference or flags of the state before the call is left in its result. -/
theorem read_data_starts_from_reset (s : init_response_info) (events : List edge_event) :
    (clear_response_info s).tick_index = 0 ∧
    (clear_response_info s).tick_count = 0 ∧
    (clear_response_info s).running = 0 ∧
    (clear_response_info s).finished = 0 ∧
    (clear_response_info s).error = 0 ∧
    (clear_response_info s).tick_buf = s.tick_buf ∧
    (read_data s []).1 = clear_response_info s ∧
    (read_data s events).1 = capture_window (clear_response_info s) events ∧
    (∀ s2 : init_response_info, s2.tick_buf = s.tick_buf →
      read_data s2 events = read_data s events) := by
  refine ⟨rfl, rfl, rfl, rfl, rfl, rfl, rfl, rfl, ?_⟩
  intro s2 h
  have hc : clear_response_info s2 = clear_response_info s := by
    unfold clear_response_info
    rw [h]
  unfold read_data
  rw [hc]

/-- C20 on the known-good capture, a finished state with cursor 83: a new
call of `read_data` with the window `short_window` behaves as on the state
reset by hand, and ends with cursor 3. -/
theorem read_data_starts_from_reset_witness :
    known_good_capture.finished = 1 ∧ known_good_capture.tick_index = 83 ∧
    read_data (clear_response_info known_good_capture) short_window =
      read_data known_good_capture short_window ∧
    (read_data known_good_capture short_window).1.tick_index = 3 :=
  ⟨by decide, by decide,
   (read_data_starts_from_reset known_good_capture short_window).2.2.2.2.2.2.2.2
      (clear_response_info known_good_capture) rfl,
   by decide⟩

/-! ## Bands of validator and decoder, diagnostics -/

/-- The payload loop of `read_data` decides on a data pulse by
`good_data_pulse`. -/
theorem check_pairs_data_test (buf : List Int) (i : Nat) (rest : List Nat) (header data : Int)
    (hh : buf[i]? = some header) (hband : ¬ (header < 40 ∨ header > 60))
    (hd : buf[i + 1]? = some data) :
    check_pairs buf (i :: rest) =
      if !(good_data_pulse data) then some (some (.bad_data data i))
      else check_pairs buf rest := by
  rw [check_pairs, hh, Option.some_bind, if_neg hband, hd, Option.some_bind]
  rfl

/-- C21 (evaluation of the code): the data-pulse test of `read_data` and
`decode_data_bit` agree on the short band and on 60..80, but the validator
accepts 55..59 and 81..85 (here 55, 57, 59, 81, 85) while the decoder
classifies these durations as invalid; the capture `low_bit_capture`, with
57-tick pulses, passes `read_data`. -/
theorem validator_and_decoder_bands_differ :
    good_data_pulse 25 = true ∧ decode_data_bit 25 = 0 ∧
    good_data_pulse 70 = true ∧ decode_data_bit 70 = 1 ∧
    good_data_pulse 60 = true ∧ decode_data_bit 60 = 1 ∧
    good_data_pulse 80 = true ∧ decode_data_bit 80 = 1 ∧
    good_data_pulse 45 = false ∧ decode_data_bit 45 = -1 ∧
    good_data_pulse 55 = true ∧ decode_data_bit 55 = -1 ∧
    good_data_pulse 57 = true ∧ decode_data_bit 57 = -1 ∧
    good_data_pulse 59 = true ∧ decode_data_bit 59 = -1 ∧
    good_data_pulse 81 = true ∧ decode_data_bit 81 = -1 ∧
    good_data_pulse 85 = true ∧ decode_data_bit 85 = -1 ∧
    read_data_check low_bit_capture = some .ok := by
  simp only [read_data_check, for_i_lt_payload]
  decide

/-- C22 (evaluation of the code): a bad header pulse at index 5 (61 ticks)
is reported with its length and its own index 5. A bad data pulse at index 4
(45 ticks, the header at index 3 being 50 ticks) is reported with its length
45 but with position 3, the index of the header pulse of its pair. -/
theorem bad_data_pulse_reported_at_header_index :
    read_data_check { known_good_capture with
      tick_buf := known_good_capture.tick_buf.set 5 61 } = some (.bad_header 61 5) ∧
    (first_pulse_capture 45).tick_buf.length = 83 ∧
    (first_pulse_capture 45).finished = 1 ∧ (first_pulse_capture 45).running = 0 ∧
    (first_pulse_capture 45).tick_buf[3]? = some 50 ∧
    (first_pulse_capture 45).tick_buf[4]? = some 45 ∧
    read_data_check (first_pulse_capture 45) = some (.bad_data 45 3) ∧
    read_data_check (first_pulse_capture 45) ≠ some (.bad_data 45 4) := by
  simp only [read_data_check, for_i_lt_payload]
  decide

/-! ## Checksum test, as coded -/

/-- C27: `main` reports "ok" exactly when the unreduced sum
`temp_high + temp_low + hum_high + hum_low` equals the checksum byte; a frame
whose four data bytes sum to 256 or more is reported "invalid" whatever its
checksum byte is; and for given data bytes the test agrees with the rule
`sum mod 256 = checksum` on every checksum byte exactly when the sum is below
256. -/
theorem check_status_compares_unreduced_sum (temp_high temp_low hum_high hum_low parity : Nat)
    (hp : parity < 256) :
    (check_status temp_high temp_low hum_high hum_low parity = .ok ↔
      temp_high + temp_low + hum_high + hum_low = parity) ∧
    (256 ≤ temp_high + temp_low + hum_high + hum_low →
      check_status temp_high temp_low hum_high hum_low parity = .invalid) ∧
    ((∀ p, p < 256 →
        (check_status temp_high temp_low hum_high hum_low p = .ok ↔
          (temp_high + temp_low + hum_high + hum_low) % 256 = p)) ↔
      temp_high + temp_low + hum_high + hum_low < 256) := by
  have key : ∀ p : Nat, check_status temp_high temp_low hum_high hum_low p = .ok ↔
      temp_high + temp_low + hum_high + hum_low = p := by
    intro p
    unfold check_status
    dsimp only
    split_ifs with h
    · constructor
      · intro hc
        exact absurd hc (by decide)
      · intro hc
        exact absurd (by exact_mod_cast hc) h
    · constructor
      · intro _
        have h' := not_not.mp h
        exact_mod_cast h'
      · intro _
        rfl
  refine ⟨key parity, ?_, ?_⟩
  · intro hs
    cases hcs : check_status temp_high temp_low hum_high hum_low parity with
    | invalid => rfl
    | ok =>
      have := (key parity).mp hcs
      omega
  · constructor
    · intro h
      by_contra hge
      have hlt : (temp_high + temp_low + hum_high + hum_low) % 256 < 256 :=
        Nat.mod_lt _ (by decide)
      have h1 := (h _ hlt).mpr rfl
      have h2 := (key _).mp h1
      omega
    · intro hlt p _
      rw [key p, Nat.mod_eq_of_lt hlt]

/-- C27 on the bytes (0x1B, 0x00, 0x32, 0x00): checksum 0x4D is accepted;
and on the bytes (0x80, 0x00, 0x80, 0x00), whose sum is 256: checksum 0x00 is
rejected. -/
theorem check_status_compares_unreduced_sum_witness :
    check_status 0x1B 0x00 0x32 0x00 0x4D = .ok ∧
    check_status 0x80 0x00 0x80 0x00 0x00 = .invalid :=
  ⟨(check_status_compares_unreduced_sum 0x1B 0x00 0x32 0x00 0x4D (by decide)).1.mpr
      (by decide),
   (check_status_compares_unreduced_sum 0x80 0x00 0x80 0x00 0x00 (by decide)).2.1
      (by decide)⟩

/-! ## Alerts that are not edges of the sensor pin -/

/-- C29: for every capture state and every event whose pin is not the sensor
pin or whose level is not 0 or 1, the callback returns the state unchanged:
the event does not become the reference edge, stores nothing and sets no
flag. -/
theorem sampler_ignores_foreign_events (s : init_response_info) (gpio level : Int)
    (ticks : Nat) (h : gpio ≠ DHT_GPIO_PORT ∨ ¬ (level = 0 ∨ level = 1)) :
    on_init_response_change s gpio level ticks = s := by
  apply sampler_ignores
  rcases h with h | h
  · exact Or.inl h
  · right
    omega

/-- C29 on the reset state and on a running state, with an edge on pin 17
and with a watchdog alert (level 2) on the sensor pin. -/
theorem sampler_ignores_foreign_events_witness :
    on_init_response_change (clear_response_info respinfo) 17 1 1000 =
      clear_response_info respinfo ∧
    on_init_response_change (clear_response_info respinfo) DHT_GPIO_PORT 2 1000 =
      clear_response_info respinfo ∧
    on_init_response_change running_state 17 0 1500 = running_state ∧
    on_init_response_change running_state DHT_GPIO_PORT 2 1500 = running_state :=
  ⟨sampler_ignores_foreign_events _ 17 1 1000 (by decide),
   sampler_ignores_foreign_events _ DHT_GPIO_PORT 2 1000 (by decide),
   sampler_ignores_foreign_events _ 17 0 1500 (by decide),
   sampler_ignores_foreign_events _ DHT_GPIO_PORT 2 1500 (by decide)⟩

/-! ## Order of the statements of a reading cycle -/

/-- C23: one cycle of `init_sensor_reading` followed by `read_data` calls the
GPIO library on the sensor pin in this order: mode output, pull-down, sleep
1 s, write 0, sleep 18000 microseconds, write 1, sleep 30 microseconds, mode
input. The switch to input directly follows the 30-microsecond sleep; the
callback is attached after it, and detached after the 5000-microsecond sleep
and before the capture is inspected. -/
theorem reading_cycle_order :
    (reading_cycle.filter cycle_step.is_gpio_call).take 8 =
      [ .gpioSetMode 4 .PI_OUTPUT, .gpioSetPullUpDown 4 .PI_PUD_DOWN, .gpioSleep 1 0,
        .gpioWrite 4 0, .gpioSleep 0 18000, .gpioWrite 4 1, .gpioSleep 0 30,
        .gpioSetMode 4 .PI_INPUT ] ∧
    18 * 1000 ≤ 18000 ∧
    reading_cycle.indexOf (.gpioSleep 0 30) = 6 ∧
    reading_cycle.indexOf (.gpioSetMode 4 .PI_INPUT) = 7 ∧
    reading_cycle.indexOf (.gpioSetAlertFunc 4 true) = 9 ∧
    reading_cycle.indexOf (.gpioSleep 0 5000) = 10 ∧
    reading_cycle.indexOf (.gpioSetAlertFunc 4 false) = 11 ∧
    reading_cycle.indexOf .inspect_capture = 12 ∧
    reading_cycle.length = 13 ∧
    reading_cycle.count (.gpioSetAlertFunc 4 true) = 1 ∧
    reading_cycle.count (.gpioSetAlertFunc 4 false) = 1 ∧
    reading_cycle.count .inspect_capture = 1 ∧
    reading_cycle.count (.gpioSetMode 4 .PI_INPUT) = 1 := by
  decide

/-! ## Completed captures hold no stale entries -/

theorem same_control_step (s t : init_response_info) (e : edge_event)
    (h : same_control s t) : same_control (deliver s e) (deliver t e) := by
  obtain ⟨h1, h2, h3, h4, h5⟩ := h
  unfold deliver on_init_response_change
  rw [h1, h2, h3, h4]
  dsimp only
  split_ifs <;>
    exact ⟨by first | rfl | exact h1, by first | rfl | exact h2, by first | rfl | exact h3,
      by first | rfl | exact h4, by first | rfl | exact h5⟩

theorem same_control_window (events : List edge_event) (s t : init_response_info)
    (h : same_control s t) :
    same_control (capture_window s events) (capture_window t events) := by
  induction events generalizing s t with
  | nil => exact h
  | cons e rest ih => exact ih _ _ (same_control_step s t e h)

theorem measured_log_same_control (events : List edge_event) (s t : init_response_info)
    (h : same_control s t) : measured_log s events = measured_log t events := by
  induction events generalizing s t with
  | nil => rfl
  | cons e rest ih =>
    have hstep := ih _ _ (same_control_step s t e h)
    obtain ⟨h1, h2, h3, h4, -⟩ := h
    have hm : measured_length s e.ticks = measured_length t e.ticks := by
      unfold measured_length
      rw [h1]
    unfold measured_log
    rw [hm, h2, h3, h4, hstep]

theorem full_buffer_is_log (s0 : init_response_info) (events : List edge_event)
    (hlen : s0.tick_buf.length = DHT_BUFFER_LENGTH)
    (hfull : (capture_window (clear_response_info s0) events).tick_index = DHT_BUFFER_LENGTH) :
    (capture_window (clear_response_info s0) events).tick_buf =
      measured_log (clear_response_info s0) events := by
  have hinv := buffer_inv_window events _ (buffer_inv_clear s0 hlen)
  have hlog := stored_prefix_window events _ (buffer_inv_clear s0 hlen)
  have hnil : (clear_response_info s0).tick_buf.take (clear_response_info s0).tick_index =
      [] := rfl
  rw [hnil, List.nil_append, hfull, ← hinv.1, List.take_length] at hlog
  exact hlog

/-- C24: in every state reached from the reset state (83-entry buffer) by
sampler events, `finished` set implies `finished = 1`, cursor 83 and
`running = 0`; the 83 buffer entries are then the durations stored during
this window, each strictly between 10 and 100, and the state is the same
whatever the buffer held before the reset. The timeout test
`running || !finished` of `read_data` is equivalent to `finished == 0`, and
when `read_data` does not end with the timeout the buffer it goes on to
validate holds the entries of this window only. -/
theorem completed_capture_invariant (s0 : init_response_info) (events : List edge_event)
    (hlen : s0.tick_buf.length = DHT_BUFFER_LENGTH) :
    ((capture_window (clear_response_info s0) events).finished ≠ 0 →
      (capture_window (clear_response_info s0) events).finished = 1 ∧
      (capture_window (clear_response_info s0) events).tick_index = 83 ∧
      (capture_window (clear_response_info s0) events).running = 0 ∧
      (capture_window (clear_response_info s0) events).tick_buf =
        measured_log (clear_response_info s0) events ∧
      (∀ i, i < 83 →
        10 < (capture_window (clear_response_info s0) events).tick_buf.getD i 0 ∧
        (capture_window (clear_response_info s0) events).tick_buf.getD i 0 < 100) ∧
      (∀ t0 : init_response_info, t0.tick_buf.length = DHT_BUFFER_LENGTH →
        capture_window (clear_response_info t0) events =
          capture_window (clear_response_info s0) events)) ∧
    (((capture_window (clear_response_info s0) events).running ≠ 0 ∨
        ¬ ((capture_window (clear_response_info s0) events).finished ≠ 0)) ↔
      (capture_window (clear_response_info s0) events).finished = 0) ∧
    ((read_data s0 events).2 ≠ some .timeout →
      (read_data s0 events).1.tick_buf = measured_log (clear_response_info s0) events) := by
  have hcap := capture_inv_window events _ (capture_inv_clear s0)
  have hbuf := buffer_inv_window events _ (buffer_inv_clear s0 hlen)
  have h83 : DHT_BUFFER_LENGTH = 83 := rfl
  have hdone : (capture_window (clear_response_info s0) events).finished ≠ 0 →
      (capture_window (clear_response_info s0) events).finished = 1 ∧
      (capture_window (clear_response_info s0) events).running = 0 ∧
      (capture_window (clear_response_info s0) events).tick_index = DHT_BUFFER_LENGTH := by
    intro hf
    rcases hcap.2.2 with h | h
    · exact absurd h hf
    · exact h
  refine ⟨?_, ?_, ?_⟩
  · intro hf
    obtain ⟨hf1, hrun, hidx⟩ := hdone hf
    have hlog := full_buffer_is_log s0 events hlen hidx
    refine ⟨hf1, hidx.trans h83, hrun, hlog, ?_, ?_⟩
    · intro i hi
      exact hbuf.2.2 i (by rw [hidx]; omega)
    · intro t0 hlen0
      have hsc : same_control (clear_response_info t0) (clear_response_info s0) :=
        ⟨rfl, rfl, rfl, rfl, rfl⟩
      have hw := same_control_window events _ _ hsc
      obtain ⟨w1, w2, w3, w4, w5⟩ := hw
      have hlog0 := full_buffer_is_log t0 events hlen0 (by rw [w2]; exact hidx)
      have hb : (capture_window (clear_response_info t0) events).tick_buf =
          (capture_window (clear_response_info s0) events).tick_buf := by
        rw [hlog0, hlog]
        exact measured_log_same_control events _ _ hsc
      generalize capture_window (clear_response_info t0) events = a at w1 w2 w3 w4 w5 hb ⊢
      generalize capture_window (clear_response_info s0) events = b at w1 w2 w3 w4 w5 hb ⊢
      cases a
      cases b
      simp only at w1 w2 w3 w4 w5 hb
      subst w1 w2 w3 w4 w5 hb
      rfl
  · constructor
    · intro h
      rcases h with h | h
      · rcases hcap.2.2 with hf | hf
        · exact hf
        · exact absurd hf.2.1 h
      · exact not_not.mp h
    · intro h
      exact Or.inr (by rw [h]; decide)
  · intro hne
    have hf : (capture_window (clear_response_info s0) events).finished ≠ 0 := by
      intro hf0
      apply hne
      show read_data_check (capture_window (clear_response_info s0) events) = some .timeout
      unfold read_data_check
      rw [if_pos (Or.inr (by rw [hf0]; decide))]
    exact full_buffer_is_log s0 events hlen (hdone hf).2.2

/-- C24 on the clean window of the known-good trace, run once on the initial
buffer of zeros and once on a buffer of 83 stale entries 99: both end
finished, with the same 83 entries. -/
theorem completed_capture_invariant_witness :
    (capture_window (clear_response_info respinfo) clean_window).finished = 1 ∧
    (capture_window (clear_response_info respinfo) clean_window).tick_index = 83 ∧
    (capture_window (clear_response_info respinfo) clean_window).running = 0 ∧
    capture_window (clear_response_info { respinfo with tick_buf := List.replicate 83 99 })
        clean_window =
      capture_window (clear_response_info respinfo) clean_window :=
  have h := (completed_capture_invariant respinfo clean_window (by decide)).1 (by decide)
  ⟨h.1, h.2.1, h.2.2.1,
    h.2.2.2.2.2 { respinfo with tick_buf := List.replicate 83 99 } (by decide)⟩

/-! ## Stall after a long gap, wrap of the tick counter -/

theorem measured_length_of_elapsed (s : init_response_info) (ticks : Nat)
    (h : elapsed s ticks < 2 ^ 31) : measured_length s ticks = elapsed s ticks := by
  unfold measured_length elapsed to_int32 at *
  norm_num at h ⊢
  omega

/-- While the reference stays where it is, a run of edges that all come 100
ticks or more (and less than `2^31` ticks) after it only sets `error`. -/
theorem stall_window (s : init_response_info) (events : List edge_event)
    (t : init_response_info) (hcount : t.tick_count = s.tick_count)
    (hrun : t.running ≠ 0) (hfin : t.finished = 0) (hidx : t.tick_index < DHT_BUFFER_LENGTH)
    (hev : ∀ e ∈ events, e.gpio = DHT_GPIO_PORT ∧ (e.level = 0 ∨ e.level = 1) ∧
      100 ≤ elapsed s e.ticks ∧ elapsed s e.ticks < 2 ^ 31) :
    capture_window t events = if events = [] then t else { t with error := 1 } := by
  induction events generalizing t with
  | nil => rfl
  | cons e rest ih =>
    obtain ⟨hp, hl, h100, h31⟩ := hev e (List.mem_cons_self _ _)
    have hm : measured_length t e.ticks = elapsed s e.ticks := by
      have : measured_length t e.ticks = measured_length s e.ticks := by
        unfold measured_length
        rw [hcount]
      rw [this]
      exact measured_length_of_elapsed s e.ticks h31
    have hstep : deliver t e = { t with error := 1 } := by
      unfold deliver
      exact sampler_flags_error t e.gpio e.level e.ticks hp hl (by omega) hidx hrun
        (Or.inr (by rw [hm]; exact h100))
    have hih := ih { t with error := 1 } hcount hrun hfin hidx
      (fun e' he' => hev e' (List.mem_cons_of_mem _ he'))
    show capture_window (deliver t e) rest = _
    rw [hstep, hih, if_neg (List.cons_ne_nil _ _)]
    split_ifs <;> rfl

/-- C25, counterexample: `full_state` has `running = 1`, `finished = 0` and
reference 4765 (its cursor is 83). An edge on the sensor pin at time 4915,
150 ticks after the reference, sets no error: it sets `finished = 1` and
`running = 0`, the capture is complete and `read_data` returns success, not
the timeout. -/
theorem long_gap_completes_full_capture :
    full_state.running = 1 ∧ full_state.finished = 0 ∧ full_state.tick_count = 4765 ∧
    elapsed full_state 4915 = 150 ∧
    (capture_window full_state [⟨DHT_GPIO_PORT, 1, 4915⟩]).finished = 1 ∧
    (capture_window full_state [⟨DHT_GPIO_PORT, 1, 4915⟩]).running = 0 ∧
    (capture_window full_state [⟨DHT_GPIO_PORT, 1, 4915⟩]).error = 0 ∧
    read_data_check (capture_window full_state [⟨DHT_GPIO_PORT, 1, 4915⟩]) = some .ok := by
  simp only [read_data_check, for_i_lt_payload]
  decide

/-- C25, amended: for every state with `running` set, `finished = 0` and
cursor below 83, and every sequence of events on the sensor pin with level 0
or 1 whose time stamps are non-decreasing counted from the reference, all less
than `2^31` ticks after it, the first one 100 ticks or more after it: after
every initial part of the sequence the state is the one before, except that
`error = 1` once an event has arrived; so buffer, cursor, reference and
`finished` never change and `read_data` ends with the timeout. -/
theorem capture_stalls_after_long_gap (s : init_response_info) (events : List edge_event)
    (hrun : s.running ≠ 0) (hfin : s.finished = 0) (hidx : s.tick_index < DHT_BUFFER_LENGTH)
    (hpin : ∀ e ∈ events, e.gpio = DHT_GPIO_PORT ∧ (e.level = 0 ∨ e.level = 1))
    (hsorted : events.Pairwise fun a b => elapsed s a.ticks ≤ elapsed s b.ticks)
    (hlt : ∀ e ∈ events, elapsed s e.ticks < 2 ^ 31)
    (hfirst : ∀ e, events.head? = some e → 100 ≤ elapsed s e.ticks) :
    (∀ k, capture_window s (events.take k) =
      if events.take k = [] then s else { s with error := 1 }) ∧
    (capture_window s events).tick_buf = s.tick_buf ∧
    (capture_window s events).tick_index = s.tick_index ∧
    (capture_window s events).tick_count = s.tick_count ∧
    (capture_window s events).finished = 0 ∧
    read_data_check (capture_window s events) = some .timeout := by
  have hall : ∀ e ∈ events, e.gpio = DHT_GPIO_PORT ∧ (e.level = 0 ∨ e.level = 1) ∧
      100 ≤ elapsed s e.ticks ∧ elapsed s e.ticks < 2 ^ 31 := by
    intro e he
    refine ⟨(hpin e he).1, (hpin e he).2, ?_, hlt e he⟩
    cases events with
    | nil => exact absurd he (List.not_mem_nil _)
    | cons e0 rest =>
      have h0 : 100 ≤ elapsed s e0.ticks := hfirst e0 rfl
      rcases List.mem_cons.mp he with rfl | hr
      · exact h0
      · have := (List.pairwise_cons.mp hsorted).1 e hr
        omega
  have hwin : ∀ l : List edge_event, (∀ e ∈ l, e ∈ events) →
      capture_window s l = if l = [] then s else { s with error := 1 } := by
    intro l hl
    exact stall_window s l s rfl hrun hfin hidx (fun e he => hall e (hl e he))
  have hwhole := hwin events (fun e he => he)
  refine ⟨?_, ?_, ?_, ?_, ?_, ?_⟩
  · intro k
    exact hwin _ (fun e he => List.mem_of_mem_take he)
  · rw [hwhole]
    split_ifs <;> rfl
  · rw [hwhole]
    split_ifs <;> rfl
  · rw [hwhole]
    split_ifs <;> rfl
  · rw [hwhole]
    split_ifs <;> exact hfin
  · have hf : (capture_window s events).finished = 0 := by
      rw [hwhole]
      split_ifs <;> exact hfin
    unfold read_data_check
    rw [if_pos (Or.inr (by rw [hf]; decide))]

/-- C25, amended, on `running_state` (reference 1180, cursor 3) with edges
at 1300, 1350 and 1350 + 4000. -/
theorem capture_stalls_after_long_gap_witness :
    capture_window running_state
        [⟨DHT_GPIO_PORT, 0, 1300⟩, ⟨DHT_GPIO_PORT, 1, 1350⟩, ⟨DHT_GPIO_PORT, 0, 5350⟩] =
      { running_state with error := 1 } ∧
    read_data_check (capture_window running_state
        [⟨DHT_GPIO_PORT, 0, 1300⟩, ⟨DHT_GPIO_PORT, 1, 1350⟩, ⟨DHT_GPIO_PORT, 0, 5350⟩]) =
      some .timeout :=
  have h := capture_stalls_after_long_gap running_state
    [⟨DHT_GPIO_PORT, 0, 1300⟩, ⟨DHT_GPIO_PORT, 1, 1350⟩, ⟨DHT_GPIO_PORT, 0, 5350⟩]
    (by decide) (by decide) (by decide) (by decide) (by decide) (by decide) (by decide)
  ⟨h.1 3, h.2.2.2.2.2⟩

/-- The length measured for an edge `d` ticks after the reference `r` on the
32-bit counter, `10 < d < 100`, is `d`, whether or not the counter wraps. -/
theorem measured_length_wrapped (s : init_response_info) (r d : Nat)
    (hr : r < 4294967296) (href : s.tick_count = to_int32 r) (hd : 10 < d ∧ d < 100) :
    measured_length s ((r + d) % 4294967296) = d := by
  unfold measured_length
  rw [href]
  unfold to_int32
  have e32 : (2 : Int) ^ 32 = 4294967296 := by norm_num
  have e31 : (2 : Int) ^ 31 = 2147483648 := by norm_num
  rw [e32, e31]
  have hA : (((r + d) % 4294967296 : Nat) : Int) = (r : Int) + d ∨
      (((r + d) % 4294967296 : Nat) : Int) = (r : Int) + d - 4294967296 := by
    omega
  have hB : ((r : Int) + 2147483648) % 4294967296 = (r : Int) + 2147483648 ∨
      ((r : Int) + 2147483648) % 4294967296 = (r : Int) + 2147483648 - 4294967296 := by
    omega
  rcases hA with hA | hA <;> rcases hB with hB | hB <;> rw [hA, hB] <;> omega

/-- C26, counterexample: an event `d = 20` ticks after the reference
4294967286 (`2^32 - 10`, kept in `tick_count` as -10), so with time stamp
`(4294967286 + 20) mod 2^32 = 10`, that stores nothing. In `full_state` with
this reference sampling is running, the capture is not finished and the
cursor is 83: the edge on the sensor pin leaves buffer, cursor and reference
as they are and sets `finished`. In `running_state` with this reference
(cursor 3) the same time stamp on the sensor pin with level 2 is ignored:
entry 3 of the buffer stays 0 and the cursor stays 3. -/
theorem wrapped_edge_not_stored :
    (4294967286 + 20) % 2 ^ 32 = 10 ∧
    to_int32 4294967286 = -10 ∧
    ({ full_state with tick_count := -10 } : init_response_info).running = 1 ∧
    ({ full_state with tick_count := -10 } : init_response_info).finished = 0 ∧
    ({ full_state with tick_count := -10 } : init_response_info).tick_index = 83 ∧
    measured_length { full_state with tick_count := -10 } 10 = 20 ∧
    (on_init_response_change { full_state with tick_count := -10 }
      DHT_GPIO_PORT 1 10).tick_buf = full_state.tick_buf ∧
    (on_init_response_change { full_state with tick_count := -10 }
      DHT_GPIO_PORT 1 10).tick_index = 83 ∧
    (on_init_response_change { full_state with tick_count := -10 }
      DHT_GPIO_PORT 1 10).tick_count = -10 ∧
    (on_init_response_change { full_state with tick_count := -10 }
      DHT_GPIO_PORT 1 10).finished = 1 ∧
    20 ∉ (on_init_response_change { full_state with tick_count := -10 }
      DHT_GPIO_PORT 1 10).tick_buf.drop 82 ∧
    ({ running_state with tick_count := -10 } : init_response_info).running = 1 ∧
    ({ running_state with tick_count := -10 } : init_response_info).tick_index = 3 ∧
    measured_length { running_state with tick_count := -10 } 10 = 20 ∧
    on_init_response_change { running_state with tick_count := -10 } DHT_GPIO_PORT 2 10 =
      { running_state with tick_count := -10 } ∧
    (on_init_response_change { running_state with tick_count := -10 }
      DHT_GPIO_PORT 2 10).tick_buf[3]? = some 0 := by
  decide

/-- C26, amended: the callback takes the duration modulo `2^32`: for every
reference `r` below `2^32` (kept in `tick_count` as an `int`) and every `d`
with `10 < d < 100`, an edge on the sensor pin with level 0 or 1 and time
stamp `(r + d) mod 2^32`, arriving while sampling is running, the capture is
not finished and the cursor is below 83, is measured as `d` and `d` is stored
at the cursor, also when `r + d` passes `2^32`. -/
theorem wrapped_duration_is_stored (s : init_response_info) (r d : Nat) (gpio level : Int)
    (hr : r < 2 ^ 32) (href : s.tick_count = to_int32 r) (hd : 10 < d ∧ d < 100)
    (hlen : s.tick_buf.length = DHT_BUFFER_LENGTH) (hrun : s.running ≠ 0)
    (hfin : s.finished = 0) (hidx : s.tick_index < DHT_BUFFER_LENGTH)
    (hpin : gpio = DHT_GPIO_PORT) (hlevel : level = 0 ∨ level = 1) :
    measured_length s ((r + d) % 2 ^ 32) = d ∧
    (on_init_response_change s gpio level ((r + d) % 2 ^ 32)).tick_buf[s.tick_index]? =
      some (d : Int) ∧
    (on_init_response_change s gpio level ((r + d) % 2 ^ 32)).tick_index = s.tick_index + 1 ∧
    (on_init_response_change s gpio level ((r + d) % 2 ^ 32)).tick_count =
      to_int32 (((r + d) % 2 ^ 32 : Nat) : Int) := by
  have n32 : (2 : Nat) ^ 32 = 4294967296 := by norm_num
  rw [n32] at hr ⊢
  have hm : measured_length s ((r + d) % 4294967296) = d :=
    measured_length_wrapped s r d hr href hd
  have hin : 10 < measured_length s ((r + d) % 4294967296) ∧
      measured_length s ((r + d) % 4294967296) < 100 := by
    rw [hm]
    omega
  rw [sampler_stores s gpio level _ hpin hlevel (by omega) hidx hrun hin]
  refine ⟨hm, ?_, rfl, rfl⟩
  show (s.tick_buf.set s.tick_index
    (measured_length s ((r + d) % 4294967296)))[s.tick_index]? = _
  rw [hm]
  exact List.getElem?_set_self (by omega)

/-- C26, amended, with the reference 4294967286, which is `2^32 - 10`, and `d = 20`:
the counter wraps, the time stamp of the edge is 10, and 20 is stored. -/
theorem wrapped_duration_is_stored_witness :
    (4294967286 + 20) % 2 ^ 32 = 10 ∧
    to_int32 4294967286 = -10 ∧
    measured_length { running_state with tick_count := -10 } 10 = 20 ∧
    (on_init_response_change { running_state with tick_count := -10 }
      DHT_GPIO_PORT 1 10).tick_buf[3]? = some 20 :=
  have h := wrapped_duration_is_stored { running_state with tick_count := -10 }
    4294967286 20 DHT_GPIO_PORT 1 (by decide) (by decide) (by decide) (by decide)
    (by decide) (by decide) (by decide) rfl (by decide)
  ⟨by decide, by decide, h.1, h.2.1⟩

/-! ## The frame assembler accumulates by OR -/

theorem decoded_byte_lt (buf : List Int) (start : Nat)
    (hbits : ∀ j, j < 8 → decode_data_bit (buf.getD (start + 2 * j + 1) 0) = 0 ∨
      decode_data_bit (buf.getD (start + 2 * j + 1) 0) = 1) :
    decoded_byte buf start < 256 := by
  have hle : ∀ j, j < 8 → bit_value buf (start + 2 * j + 1) ≤ 1 := by
    intro j hj
    obtain ⟨b, hb⟩ := bit_value_bool buf _ (hbits j hj)
    rw [hb]
    cases b <;> decide
  have h0 := hle 0 (by omega)
  have h1 := hle 1 (by omega)
  have h2 := hle 2 (by omega)
  have h3 := hle 3 (by omega)
  have h4 := hle 4 (by omega)
  have h5 := hle 5 (by omega)
  have h6 := hle 6 (by omega)
  have h7 := hle 7 (by omega)
  unfold decoded_byte
  simp only [Finset.sum_range_succ, Finset.sum_range_zero, Nat.reduceSub, Nat.reducePow,
    Nat.zero_add]
  omega

theorem and_or_self_left (v b : Nat) : v &&& (v ||| b) = v := by
  apply Nat.eq_of_testBit_eq
  intro i
  rw [Nat.testBit_and, Nat.testBit_or]
  cases v.testBit i <;> rfl

/-- One byte loop of `decode_data`, the object holding `v` on entry: it
leaves `v ||| decoded_byte`, clears no bit of `v`, and run again on its own
result it leaves it as it is. -/
theorem decode_loop_or (buf : List Int) (start v : Nat) (hlen : start + 16 ≤ buf.length)
    (hv : v < 256)
    (hbits : ∀ j, j < 8 → decode_data_bit (buf.getD (start + 2 * j + 1) 0) = 0 ∨
      decode_data_bit (buf.getD (start + 2 * j + 1) 0) = 1) :
    List.foldl (decode_step buf) (some v)
        [(start, 0), (start + 2, 1), (start + 4, 2), (start + 6, 3),
         (start + 8, 4), (start + 10, 5), (start + 12, 6), (start + 14, 7)] =
      some (v ||| decoded_byte buf start) ∧
    v &&& (v ||| decoded_byte buf start) = v ∧
    List.foldl (decode_step buf) (some (v ||| decoded_byte buf start))
        [(start, 0), (start + 2, 1), (start + 4, 2), (start + 6, 3),
         (start + 8, 4), (start + 10, 5), (start + 12, 6), (start + 14, 7)] =
      some (v ||| decoded_byte buf start) := by
  have hb := decoded_byte_lt buf start hbits
  have hvb : v ||| decoded_byte buf start < 256 := by
    have := Nat.or_lt_two_pow (n := 8) (by norm_num; exact hv) (by norm_num; exact hb)
    simpa using this
  refine ⟨decode_loop_byte buf start v hlen hv hbits, and_or_self_left _ _, ?_⟩
  have h2 := decode_loop_byte buf start (v ||| decoded_byte buf start) hlen hvb hbits
  rw [h2]
  unfold decoded_byte
  rw [Nat.lor_assoc, Nat.or_self]

/-- C28: for each of the four data bytes, with any value `v` in the object
on entry and any 83-entry buffer whose 8 data pulses of that byte decode to 0
or 1, `decode_data` leaves `v` OR the decoded byte in the object: no bit of
`v` is cleared, a second run of `decode_data` on the result changes nothing,
and with `v = 0` the result is the decoded byte. For `v` other than 0 the
result need not be the decoded byte: on a buffer whose data pulses all decode
to 0 the decoded byte is 0 and the result is `v`. -/
theorem decode_data_accumulates_by_or (s : init_response_info) (o : frame_bytes)
    (hlen : s.tick_buf.length = DHT_BUFFER_LENGTH)
    (hv : o.hum_high < 256 ∧ o.hum_low < 256 ∧ o.temp_high < 256 ∧ o.temp_low < 256) :
    ((∀ j, j < 8 → decode_data_bit (s.tick_buf.getD (3 + 2 * j + 1) 0) = 0 ∨
        decode_data_bit (s.tick_buf.getD (3 + 2 * j + 1) 0) = 1) →
      (decode_data s o).hum_high = some (o.hum_high ||| decoded_byte s.tick_buf 3) ∧
      o.hum_high &&& (o.hum_high ||| decoded_byte s.tick_buf 3) = o.hum_high ∧
      (decode_data s { o with hum_high := o.hum_high ||| decoded_byte s.tick_buf 3 }).hum_high =
        some (o.hum_high ||| decoded_byte s.tick_buf 3) ∧
      (o.hum_high = 0 → (decode_data s o).hum_high = some (decoded_byte s.tick_buf 3))) ∧
    ((∀ j, j < 8 → decode_data_bit (s.tick_buf.getD (19 + 2 * j + 1) 0) = 0 ∨
        decode_data_bit (s.tick_buf.getD (19 + 2 * j + 1) 0) = 1) →
      (decode_data s o).hum_low = some (o.hum_low ||| decoded_byte s.tick_buf 19) ∧
      o.hum_low &&& (o.hum_low ||| decoded_byte s.tick_buf 19) = o.hum_low ∧
      (decode_data s { o with hum_low := o.hum_low ||| decoded_byte s.tick_buf 19 }).hum_low =
        some (o.hum_low ||| decoded_byte s.tick_buf 19) ∧
      (o.hum_low = 0 → (decode_data s o).hum_low = some (decoded_byte s.tick_buf 19))) ∧
    ((∀ j, j < 8 → decode_data_bit (s.tick_buf.getD (35 + 2 * j + 1) 0) = 0 ∨
        decode_data_bit (s.tick_buf.getD (35 + 2 * j + 1) 0) = 1) →
      (decode_data s o).temp_high = some (o.temp_high ||| decoded_byte s.tick_buf 35) ∧
      o.temp_high &&& (o.temp_high ||| decoded_byte s.tick_buf 35) = o.temp_high ∧
      (decode_data s
          { o with temp_high := o.temp_high ||| decoded_byte s.tick_buf 35 }).temp_high =
        some (o.temp_high ||| decoded_byte s.tick_buf 35) ∧
      (o.temp_high = 0 → (decode_data s o).temp_high = some (decoded_byte s.tick_buf 35))) ∧
    ((∀ j, j < 8 → decode_data_bit (s.tick_buf.getD (51 + 2 * j + 1) 0) = 0 ∨
        decode_data_bit (s.tick_buf.getD (51 + 2 * j + 1) 0) = 1) →
      (decode_data s o).temp_low = some (o.temp_low ||| decoded_byte s.tick_buf 51) ∧
      o.temp_low &&& (o.temp_low ||| decoded_byte s.tick_buf 51) = o.temp_low ∧
      (decode_data s { o with temp_low := o.temp_low ||| decoded_byte s.tick_buf 51 }).temp_low =
        some (o.temp_low ||| decoded_byte s.tick_buf 51) ∧
      (o.temp_low = 0 → (decode_data s o).temp_low = some (decoded_byte s.tick_buf 51))) ∧
    (∀ v, 0 < v → v < 256 →
      decoded_byte (first_pulse_capture 25).tick_buf 3 = 0 ∧
      (decode_data (first_pulse_capture 25) { zero_bytes with hum_high := v }).hum_high =
        some v) := by
  have hlen' : s.tick_buf.length = 83 := hlen
  obtain ⟨v1, v2, v3, v4⟩ := hv
  refine ⟨?_, ?_, ?_, ?_, ?_⟩
  · intro hbits
    obtain ⟨a, b, c⟩ := decode_loop_or s.tick_buf 3 o.hum_high (by omega) v1 hbits
    refine ⟨?_, b, ?_, ?_⟩
    · rw [← a]
      simp only [decode_data, decode_data_loops_hum_high]
    · rw [← c]
      simp only [decode_data, decode_data_loops_hum_high]
    · intro h0
      have : (decode_data s o).hum_high = some (o.hum_high ||| decoded_byte s.tick_buf 3) := by
        rw [← a]
        simp only [decode_data, decode_data_loops_hum_high]
      rw [this, h0, Nat.zero_or]
  · intro hbits
    obtain ⟨a, b, c⟩ := decode_loop_or s.tick_buf 19 o.hum_low (by omega) v2 hbits
    refine ⟨?_, b, ?_, ?_⟩
    · rw [← a]
      simp only [decode_data, decode_data_loops_hum_low]
    · rw [← c]
      simp only [decode_data, decode_data_loops_hum_low]
    · intro h0
      have : (decode_data s o).hum_low = some (o.hum_low ||| decoded_byte s.tick_buf 19) := by
        rw [← a]
        simp only [decode_data, decode_data_loops_hum_low]
      rw [this, h0, Nat.zero_or]
  · intro hbits
    obtain ⟨a, b, c⟩ := decode_loop_or s.tick_buf 35 o.temp_high (by omega) v3 hbits
    refine ⟨?_, b, ?_, ?_⟩
    · rw [← a]
      simp only [decode_data, decode_data_loops_temp_high]
    · rw [← c]
      simp only [decode_data, decode_data_loops_temp_high]
    · intro h0
      have : (decode_data s o).temp_high =
          some (o.temp_high ||| decoded_byte s.tick_buf 35) := by
        rw [← a]
        simp only [decode_data, decode_data_loops_temp_high]
      rw [this, h0, Nat.zero_or]
  · intro hbits
    obtain ⟨a, b, c⟩ := decode_loop_or s.tick_buf 51 o.temp_low (by omega) v4 hbits
    refine ⟨?_, b, ?_, ?_⟩
    · rw [← a]
      simp only [decode_data, decode_data_loops_temp_low]
    · rw [← c]
      simp only [decode_data, decode_data_loops_temp_low]
    · intro h0
      have : (decode_data s o).temp_low = some (o.temp_low ||| decoded_byte s.tick_buf 51) := by
        rw [← a]
        simp only [decode_data, decode_data_loops_temp_low]
      rw [this, h0, Nat.zero_or]
  · intro v _ hv256
    have hz : decoded_byte (first_pulse_capture 25).tick_buf 3 = 0 := by decide
    obtain ⟨a, -, -⟩ := decode_loop_or (first_pulse_capture 25).tick_buf 3 v (by decide) hv256
      (by decide)
    refine ⟨hz, ?_⟩
    rw [hz, Nat.or_zero] at a
    rw [← a]
    simp only [decode_data, decode_data_loops_hum_high, zero_bytes]

/-- C28 on the known-good trace, whose first byte decodes to 0xB2, with 0x01
in `hum_high` on entry: the result is 0xB3, and a second run leaves 0xB3. -/
theorem decode_data_accumulates_by_or_witness :
    decoded_byte known_good_capture.tick_buf 3 = 0xB2 ∧
    (decode_data known_good_capture { zero_bytes with hum_high := 0x01 }).hum_high =
      some 0xB3 ∧
    (decode_data known_good_capture { zero_bytes with hum_high := 0xB3 }).hum_high =
      some 0xB3 :=
  have h := (decode_data_accumulates_by_or known_good_capture
    { zero_bytes with hum_high := 0x01 } (by decide) (by decide)).1 (by decide)
  ⟨by decide, h.1.trans (by decide), h.2.2.1.trans (by decide)⟩

/-! ## The checksum byte in the compiled program -/

/-- For a count in 0..31 the shift of the compiled program is the shift that
C defines. -/
theorem machine_shl_in_range (m : shift_count) (x n : Int) (h : 0 ≤ n ∧ n < 32) :
    c_shl x n = some (machine_shl m x n) := by
  unfold c_shl machine_shl
  rw [if_pos h]
  cases m
  · have h32 : n % 32 = n := Int.emod_eq_of_lt h.1 h.2
    simp only [h32]
  · have h256 : n % 256 = n := Int.emod_eq_of_lt h.1 (by omega)
    simp only [h256, if_pos h.2]

/-- A pass that reads within the buffer and shifts by a count in 0..7 gives
in the compiled program the byte that C defines. -/
theorem decode_step_compiled_in_range (m : shift_count) (beyond : Int) (buf : List Int)
    (o i j : Nat) (hi : i + 1 < buf.length) (hj : j ≤ 7) :
    decode_step buf (some o) (i, j) = some (decode_step_compiled m beyond buf o (i, j)) := by
  have hget : buf[i + 1]? = some (buf.getD (i + 1) beyond) := by
    rw [List.getD_eq_getElem?_getD, List.getElem?_eq_getElem hi]
    rfl
  simp only [decode_step, decode_step_compiled, Option.some_bind, hget,
    machine_shl_in_range m _ (7 - (j : Int)) (by omega), Option.map_some']

/-- Any number of such passes. -/
theorem decode_loop_compiled (m : shift_count) (beyond : Int) (buf : List Int)
    (l : List (Nat × Nat)) (hl : ∀ ij ∈ l, ij.1 + 1 < buf.length ∧ ij.2 ≤ 7) (o : Nat) :
    l.foldl (decode_step buf) (some o) =
      some (l.foldl (decode_step_compiled m beyond buf) o) := by
  induction l generalizing o with
  | nil => rfl
  | cons ij rest ih =>
    obtain ⟨i, j⟩ := ij
    have h := hl (i, j) (List.mem_cons_self _ _)
    rw [List.foldl_cons, List.foldl_cons,
      decode_step_compiled_in_range m beyond buf o i j h.1 h.2]
    exact ih (fun x hx => hl x (List.mem_cons_of_mem _ hx)) _

theorem decode_data_bit_values (d : Int) :
    decode_data_bit d = 0 ∨ decode_data_bit d = 1 ∨ decode_data_bit d = -1 := by
  unfold decode_data_bit
  split_ifs
  · exact Or.inl rfl
  · exact Or.inr (Or.inl rfl)
  · exact Or.inr (Or.inr rfl)

/-- The shift of the ninth pass, by `7 - 8 = -1`: on either target the
result is 0 or has only bit 31 set. -/
theorem machine_shl_ninth (m : shift_count) (bit : Int)
    (hb : bit = 0 ∨ bit = 1 ∨ bit = -1) :
    machine_shl m bit (7 - ((8 : Nat) : Int)) = 0 ∨
      machine_shl m bit (7 - ((8 : Nat) : Int)) = -2147483648 := by
  cases m <;> rcases hb with rfl | rfl | rfl <;> decide

/-- OR-ing 0, or an `int` with only bit 31 set, into a byte and storing the
result in an `unsigned char` leaves the byte. -/
theorem c_or_keeps_low_byte (v : Nat) (hv : v < 256) :
    to_uchar (c_or (v : Int) 0) = v ∧ to_uchar (c_or (v : Int) (-2147483648)) = v := by
  have h0 : to_uint32 (0 : Int) = 0 := by decide
  have h1 : to_uint32 (-2147483648) = 2 ^ 31 := by decide
  have hv32 : to_uint32 (v : Int) = v := to_uint32_natCast v (by norm_num; omega)
  have hor : v ||| 2 ^ 31 = 2 ^ 31 + v := by
    have h := Nat.mul_add_lt_is_or (show v < 2 ^ 31 by norm_num; omega) 1
    rw [Nat.mul_one] at h
    rw [Nat.lor_comm]
    exact h.symm
  unfold c_or
  rw [hv32, h0, h1, Nat.or_zero, hor]
  constructor
  · rw [Int.ofNat_eq_coe, to_int32_of_small _ (by omega) (by norm_num; omega)]
    exact to_uchar_natCast v hv
  · unfold to_int32 to_uchar
    norm_num
    omega

/-- The ninth pass of the checksum loop leaves the byte as it is, whatever
byte it reads past the buffer. -/
theorem decode_step_compiled_ninth (m : shift_count) (beyond : Int) (buf : List Int)
    (v : Nat) (hv : v < 256) :
    decode_step_compiled m beyond buf v (83, 8) = v := by
  unfold decode_step_compiled
  dsimp only
  rcases machine_shl_ninth m _ (decode_data_bit_values (buf.getD (83 + 1) beyond)) with h | h
  · rw [h]
    exact (c_or_keeps_low_byte v hv).1
  · rw [h]
    exact (c_or_keeps_low_byte v hv).2

/-- The checksum loop in the compiled program, the object holding 0 on
entry: eight passes as C defines them, which assemble the byte of the eight
data pulses, and a ninth pass that leaves it. -/
theorem decode_data_parity_compiled_eq (m : shift_count) (beyond : Int)
    (s : init_response_info) (o : frame_bytes)
    (hlen : s.tick_buf.length = DHT_BUFFER_LENGTH) (hzero : o.parity = 0)
    (hbits : ∀ j, j < 8 → decode_data_bit (s.tick_buf.getD (67 + 2 * j + 1) 0) = 0 ∨
      decode_data_bit (s.tick_buf.getD (67 + 2 * j + 1) 0) = 1) :
    (decode_data_loops.parity.take 8).foldl (decode_step s.tick_buf) (some o.parity) =
      some (decoded_byte s.tick_buf 67) ∧
    decode_data_parity_compiled m beyond s o = decoded_byte s.tick_buf 67 := by
  have h83 : DHT_BUFFER_LENGTH = 83 := rfl
  have hl : s.tick_buf.length = 83 := hlen.trans h83
  have hstrict := decode_loop_byte s.tick_buf 67 0 (by omega) (by omega) hbits
  rw [Nat.zero_or] at hstrict
  have hall : ∀ ij ∈ [(67, 0), (67 + 2, 1), (67 + 4, 2), (67 + 6, 3), (67 + 8, 4), (67 + 10, 5),
      (67 + 12, 6), (67 + 14, 7)], ij.1 + 1 < s.tick_buf.length ∧ ij.2 ≤ 7 := by
    rw [hl]
    decide
  have hcomp := decode_loop_compiled m beyond s.tick_buf _ hall 0
  rw [hstrict] at hcomp
  have hsum := Option.some.inj hcomp
  have hloop : decode_data_loops.parity =
      [(67, 0), (67 + 2, 1), (67 + 4, 2), (67 + 6, 3), (67 + 8, 4), (67 + 10, 5),
        (67 + 12, 6), (67 + 14, 7)] ++ [(83, 8)] := decode_data_loops_parity
  have htake : (decode_data_loops.parity).take 8 =
      [(67, 0), (67 + 2, 1), (67 + 4, 2), (67 + 6, 3), (67 + 8, 4), (67 + 10, 5),
        (67 + 12, 6), (67 + 14, 7)] := by
    rw [hloop]
    rfl
  unfold decoded_byte
  constructor
  · rw [htake, hzero]
    exact hstrict
  · unfold decode_data_parity_compiled
    rw [hloop, hzero, List.foldl_append, List.foldl_cons, List.foldl_nil, ← hsum]
    exact decode_step_compiled_ninth m beyond s.tick_buf _ (decoded_byte_lt s.tick_buf 67 hbits)

/-- C7: for every 83-entry buffer whose data pulses at indices 68, 70, ..., 82
each decode to 0 or 1, and a checksum object that holds 0 on entry, the byte
that the checksum loop of `decode_data` leaves in the compiled program is
`∑ j < 8, bit(buf[67 + 2j + 1]) * 2^(7 - j)`. The first eight passes of the
loop, which C defines, assemble this byte; the ninth pass, which the test
`i <= end_index` adds, leaves it, on either target and whatever byte it reads
at index 84. The
byte depends on nothing else: a second buffer whose eight data pulses decode
to the same bits gives the same byte, whatever its other entries, the byte
past it and the target are. -/
theorem checksum_byte_from_eight_bits (m : shift_count) (beyond : Int)
    (s : init_response_info) (o : frame_bytes)
    (hlen : s.tick_buf.length = DHT_BUFFER_LENGTH) (hzero : o.parity = 0)
    (hbits : ∀ j, j < 8 → decode_data_bit (s.tick_buf.getD (67 + 2 * j + 1) 0) = 0 ∨
      decode_data_bit (s.tick_buf.getD (67 + 2 * j + 1) 0) = 1) :
    decode_data_parity_compiled m beyond s o =
      ∑ j ∈ Finset.range 8, bit_value s.tick_buf (67 + 2 * j + 1) * 2 ^ (7 - j) ∧
    (decode_data_loops.parity.take 8).foldl (decode_step s.tick_buf) (some o.parity) =
      some (∑ j ∈ Finset.range 8, bit_value s.tick_buf (67 + 2 * j + 1) * 2 ^ (7 - j)) ∧
    decode_data_loops.parity.drop 8 = [(83, 8)] ∧
    (∀ v, v < 256 → decode_step_compiled m beyond s.tick_buf v (83, 8) = v) ∧
    (∀ (m2 : shift_count) (beyond2 : Int) (s2 : init_response_info) (o2 : frame_bytes),
      s2.tick_buf.length = DHT_BUFFER_LENGTH → o2.parity = 0 →
      (∀ j, j < 8 → decode_data_bit (s2.tick_buf.getD (67 + 2 * j + 1) 0) =
        decode_data_bit (s.tick_buf.getD (67 + 2 * j + 1) 0)) →
      decode_data_parity_compiled m2 beyond2 s2 o2 =
        decode_data_parity_compiled m beyond s o) := by
  obtain ⟨hstrict, hcomp⟩ := decode_data_parity_compiled_eq m beyond s o hlen hzero hbits
  refine ⟨hcomp, hstrict, ?_, fun v hv => decode_step_compiled_ninth m beyond s.tick_buf v hv,
    ?_⟩
  · rw [decode_data_loops_parity]
    rfl
  · intro m2 beyond2 s2 o2 hlen2 hzero2 hsame
    have hbits2 : ∀ j, j < 8 →
        decode_data_bit (s2.tick_buf.getD (67 + 2 * j + 1) 0) = 0 ∨
        decode_data_bit (s2.tick_buf.getD (67 + 2 * j + 1) 0) = 1 := by
      intro j hj
      rw [hsame j hj]
      exact hbits j hj
    rw [hcomp, (decode_data_parity_compiled_eq m2 beyond2 s2 o2 hlen2 hzero2 hbits2).2]
    unfold decoded_byte
    apply Finset.sum_congr rfl
    intro j hj
    unfold bit_value
    rw [hsame j (Finset.mem_range.mp hj)]

/-- C7 on the known-good trace, whose checksum bits are 11001101: the byte
is 0xCD on a target that takes the count modulo 32, the byte at index 84
being 83, and on a target that takes the low byte of the count, the byte at
index 84 being 70. -/
theorem checksum_byte_from_eight_bits_witness :
    decode_data_parity_compiled .modulo_32 83 known_good_capture zero_bytes = 0xCD ∧
    decode_data_parity_compiled .low_byte 70 known_good_capture zero_bytes = 0xCD :=
  ⟨(checksum_byte_from_eight_bits .modulo_32 83 known_good_capture zero_bytes
      (by decide) rfl (by decide)).1.trans (by decide),
   (checksum_byte_from_eight_bits .low_byte 70 known_good_capture zero_bytes
      (by decide) rfl (by decide)).1.trans (by decide)⟩

end DHT11

namespace Morse

/-! ## Morse table -/

set_option maxRecDepth 100000

/-- Every table entry of a digit or a small letter, checked one by one, for
a signed and for an unsigned `char`. -/
theorem morse_table_checked (signed_char : Bool) :
    ∀ c ∈ morse_characters,
      1 ≤ entry_byte (setup_decoding_table signed_char decode_table) c / 32 ∧
      entry_byte (setup_decoding_table signed_char decode_table) c / 32 ≤ 5 ∧
      chain_signs (setup_decoding_table signed_char decode_table) (c : Int) =
        some (international_morse (Char.ofNat c)).toList ∧
      print_chain (setup_decoding_table signed_char decode_table) (c : Int) =
        some ("(".toList ++ [Char.ofNat c] ++ ") ".toList ++
          (international_morse (Char.ofNat c)).toList ++ [Char.ofNat 10]) ∧
      (international_morse (Char.ofNat c)).toList.length =
        entry_byte (setup_decoding_table signed_char decode_table) c / 32 ∧
      ∀ i, i < entry_byte (setup_decoding_table signed_char decode_table) c / 32 →
        (international_morse (Char.ofNat c)).toList.getD i ' ' =
          if (entry_byte (setup_decoding_table signed_char decode_table) c).testBit
              (entry_byte (setup_decoding_table signed_char decode_table) c / 32 - 1 - i)
          then '-' else '.' := by
  cases signed_char <;> decide

theorem mem_morse_characters (n : Nat) :
    n ∈ morse_characters ↔ (48 ≤ n ∧ n ≤ 57) ∨ (97 ≤ n ∧ n ≤ 122) := by
  have h0 : '0'.toNat = 48 := rfl
  have ha : 'a'.toNat = 97 := rfl
  unfold morse_characters
  rw [h0, ha, List.mem_append, List.mem_map, List.mem_map]
  constructor
  · rintro (⟨k, hk, rfl⟩ | ⟨k, hk, rfl⟩)
    · have := List.mem_range.mp hk
      left
      omega
    · have := List.mem_range.mp hk
      right
      omega
  · rintro (h | h)
    · exact Or.inl ⟨n - 48, List.mem_range.mpr (by omega), by omega⟩
    · exact Or.inr ⟨n - 97, List.mem_range.mpr (by omega), by omega⟩

/-- C30: after `setup_decoding_table`, for every character `c` in '0'..'9'
and 'a'..'z' the top three bits `n` of the table entry lie in 1..5, and
`print_chain(c)` prints "(c) ", then exactly `n` symbols, symbol `i` being a
dash when bit `n - 1 - i` of the entry is 1 and a dot when it is 0, then a
line feed; the symbols are the International Morse code of `c`. For every
other character `print_chain` prints nothing. This holds for a signed and for
an unsigned `char`. -/
theorem print_chain_morse (signed_char : Bool) (c : Int) :
    ((('0'.toNat : Int) ≤ c ∧ c ≤ '9'.toNat) ∨ (('a'.toNat : Int) ≤ c ∧ c ≤ 'z'.toNat) →
      1 ≤ entry_byte (setup_decoding_table signed_char decode_table) c.toNat / 32 ∧
      entry_byte (setup_decoding_table signed_char decode_table) c.toNat / 32 ≤ 5 ∧
      chain_signs (setup_decoding_table signed_char decode_table) c =
        some (international_morse (Char.ofNat c.toNat)).toList ∧
      print_chain (setup_decoding_table signed_char decode_table) c =
        some ("(".toList ++ [Char.ofNat c.toNat] ++ ") ".toList ++
          (international_morse (Char.ofNat c.toNat)).toList ++ [Char.ofNat 10]) ∧
      (international_morse (Char.ofNat c.toNat)).toList.length =
        entry_byte (setup_decoding_table signed_char decode_table) c.toNat / 32 ∧
      ∀ i, i < entry_byte (setup_decoding_table signed_char decode_table) c.toNat / 32 →
        (international_morse (Char.ofNat c.toNat)).toList.getD i ' ' =
          if (entry_byte (setup_decoding_table signed_char decode_table) c.toNat).testBit
              (entry_byte (setup_decoding_table signed_char decode_table) c.toNat / 32 - 1 - i)
          then '-' else '.') ∧
    (¬ ((('0'.toNat : Int) ≤ c ∧ c ≤ '9'.toNat) ∨ (('a'.toNat : Int) ≤ c ∧ c ≤ 'z'.toNat)) →
      print_chain (setup_decoding_table signed_char decode_table) c = some []) := by
  have h0 : (('0'.toNat : Nat) : Int) = 48 := rfl
  have h9 : (('9'.toNat : Nat) : Int) = 57 := rfl
  have ha : (('a'.toNat : Nat) : Int) = 97 := rfl
  have hz : (('z'.toNat : Nat) : Int) = 122 := rfl
  rw [h0, h9, ha, hz]
  constructor
  · intro hc
    have hmem : c.toNat ∈ morse_characters := by
      rw [mem_morse_characters]
      omega
    have hcast : ((c.toNat : Nat) : Int) = c := Int.toNat_of_nonneg (by omega)
    have h := morse_table_checked signed_char c.toNat hmem
    rw [hcast] at h
    exact h
  · intro hc
    unfold print_chain
    rw [h0, h9, ha, hz, if_neg]
    intro h
    apply hc
    omega

/-- C30 on 'a', 'q' and '7', with a signed and with an unsigned `char`, and
on the capital letter 'A', for which nothing is printed. -/
theorem print_chain_morse_witness :
    chain_signs (setup_decoding_table true decode_table) 'a'.toNat = some ".-".toList ∧
    chain_signs (setup_decoding_table true decode_table) 'q'.toNat = some "--.-".toList ∧
    chain_signs (setup_decoding_table false decode_table) '7'.toNat = some "--...".toList ∧
    print_chain (setup_decoding_table false decode_table) 'q'.toNat =
      some ("(q) --.-".toList ++ [Char.ofNat 10]) ∧
    print_chain (setup_decoding_table true decode_table) 'A'.toNat = some [] :=
  ⟨((print_chain_morse true 'a'.toNat).1 (by decide)).2.2.1,
   ((print_chain_morse true 'q'.toNat).1 (by decide)).2.2.1,
   ((print_chain_morse false '7'.toNat).1 (by decide)).2.2.1,
   ((print_chain_morse false 'q'.toNat).1 (by decide)).2.2.2.1,
   (print_chain_morse true 'A'.toNat).2 (by decide)⟩

end Morse
